import Mathlib

/-!
# pulse-to-webrtc: a verification development of `main.go`

The program answers a WebRTC offer posted to `/signal`, and, once the ICE layer reports
`connected`, pumps Opus frames pulled from a GStreamer pipeline into an outbound track.

The embedding is shallow.  The code of `main.go` is translated function by function; the
collaborators it calls (the peer connection, the GStreamer element, the track, the HTTP
response writer) are explicit environments whose every answer is a parameter, so that a
statement quantified over the environment covers every behaviour of the collaborator.
Goroutines are program counters stepped by a scheduler; the `connected` channel is a flag
that is never sent on and can only be closed.
-/

namespace PulseToWebrtc

/-! ## Go values -/

/-- One byte; a Go `string` or `[]byte` is a `List Byte`. -/
abbrev Byte := Fin 256

/-- Go `error` values: the sentinel `io.EOF`, or any other error, told apart by its message. -/
inductive GoError
  | EOF
  | other (msg : String)
deriving DecidableEq, Repr

/-- The method `Error()` of an error value. -/
def GoError.Error : GoError → String
  | .EOF => "EOF"
  | .other msg => msg

/-- The call `fmt.Errorf(text + ": %+v", err)`: a new error whose message is the text followed by
the message of `err`. -/
def fmtErrorf (text : String) (err : GoError) : GoError :=
  .other (text ++ err.Error)

/-! ## Frames -/

/-- The frame type `gst.Sample` of the capture library, as far as `main.go` reads it: the encoded
payload and the duration, an unsigned 64-bit count of nanoseconds. -/
structure GstSample where
  Data : List Byte
  Duration : Nat
deriving DecidableEq, Repr

/-- The value `media.Sample` handed to the track: payload and `time.Duration` (a signed 64-bit
count of nanoseconds). -/
structure MediaSample where
  Data : List Byte
  Duration : Int
deriving DecidableEq, Repr

/-- The conversion `time.Duration(x)` of an unsigned 64-bit integer: the same 64 bits read as a
signed integer. -/
def timeDuration (x : Nat) : Int :=
  if x % 2 ^ 64 < 2 ^ 63 then ((x % 2 ^ 64 : Nat) : Int) else ((x % 2 ^ 64 : Nat) : Int) - 2 ^ 64

/-- The literal `media.Sample{Data: gstSample.Data, Duration: time.Duration(gstSample.Duration)}`
of line 141. -/
def toMediaSample (s : GstSample) : MediaSample :=
  { Data := s.Data, Duration := timeDuration s.Duration }

/-! ## The media source -/

/-- What one call of `gstElement.PullSample()` does: it yields a sample, or it fails with an error
of the capture library (never the `io.EOF` sentinel, which belongs to package `io`); `isEOS` is
what `gstElement.IsEOS()` answers right after the failure. -/
inductive ElementPull
  | sample (s : GstSample)
  | failed (msg : String) (isEOS : Bool)
deriving DecidableEq, Repr

/-- The result pair `(*gst.Sample, error)` of `gstStream.PullSample`. -/
inductive PullResult
  | sample (s : GstSample)
  | err (e : GoError)
deriving DecidableEq, Repr

/-- The method `gstStream.PullSample` (lines 160-169). -/
def gstStream.PullSample : ElementPull → PullResult
  | .sample s => .sample s
  | .failed msg isEOS => if isEOS then .err .EOF else .err (.other msg)

/-- States a GStreamer pipeline is put in by `main.go`. -/
inductive GstState
  | Null
  | Playing
deriving DecidableEq, Repr

/-- ICE connection states of the transport library. -/
inductive ICEConnectionState
  | New
  | Checking
  | Connected
  | Completed
  | Disconnected
  | Failed
  | Closed
deriving DecidableEq, Repr

/-- The method `String()` of an ICE connection state. -/
def ICEConnectionState.String : ICEConnectionState → String
  | .New => "new"
  | .Checking => "checking"
  | .Connected => "connected"
  | .Completed => "completed"
  | .Disconnected => "disconnected"
  | .Failed => "failed"
  | .Closed => "closed"

/-- The `log.Printf` call sites of the streaming path and of the ICE callback. -/
inductive LogLine
  | iceState (state : ICEConnectionState)
  | failedToServeAudio (err : GoError)
  | startAudioStreaming
  | failedToGetStream (err : GoError)
  | failedToReadChunk (err : GoError)
  | failedToWriteSample (err : GoError)
  | startingPipeline (pipeline : String)
deriving DecidableEq, Repr

/-- The text each `log.Printf` call site prints. -/
def LogLine.text : LogLine → String
  | .iceState state => "[answer] ice state: " ++ state.String
  | .failedToServeAudio err => "failed to serve audio: " ++ err.Error
  | .startAudioStreaming => "start audio streaming"
  | .failedToGetStream err => "failed to get stream: " ++ err.Error
  | .failedToReadChunk err => "failed to read chunk: " ++ err.Error
  | .failedToWriteSample err => "failed to write sample: " ++ err.Error
  | .startingPipeline pipeline => "starting gstreamer pipeline: " ++ pipeline

/-- A log line that reports a failure (every call site but the two progress messages and the ICE
state message). -/
def LogLine.isFailureReport : LogLine → Bool
  | .failedToServeAudio _ => true
  | .failedToGetStream _ => true
  | .failedToReadChunk _ => true
  | .failedToWriteSample _ => true
  | _ => false

/-- Observable actions of the program, in the order they happen. -/
inductive Event
  | closeConnected
  | panicCloseOfClosedChannel
  | newTrack
  | addTrack
  | recvConnected
  | log (line : LogLine)
  | checkPlugins
  | parseLaunch (pipeline : String)
  | getByName (name : String)
  | setState (st : GstState)
  | pullSample (r : PullResult)
  | writeSample (s : MediaSample) (r : Option GoError)
deriving DecidableEq, Repr

/-- Every answer the collaborators of the streaming path give: the two track-setup calls, the two
fallible GStreamer setup calls, the element pull number `k` and the track write number `k`
(counted from 0). -/
structure Env where
  newTrack : Option GoError
  addTrack : Option GoError
  checkPlugins : Option GoError
  parseLaunch : Option GoError
  element : Nat → ElementPull
  track : Nat → Option GoError

/-- The pipeline description of line 175. -/
def pipelineStr : String :=
  "pulsesrc server=localhost:4713 ! opusenc ! appsink name=audio"

/-- The method `gstStream.Close` (lines 155-158): it puts the pipeline in state `Null` and returns
no error. -/
def gstStream.Close : List Event × Option GoError :=
  ([.setState .Null], none)

/-- The function `GetOpusAudioStream` (lines 171-188): the actions it performs and the error it
returns (`none` when it returns a stream). -/
def GetOpusAudioStream (env : Env) : List Event × Option GoError :=
  match env.checkPlugins with
  | some err => ([.checkPlugins], some err)
  | none =>
    match env.parseLaunch with
    | some err =>
      ([.checkPlugins, .log (.startingPipeline pipelineStr), .parseLaunch pipelineStr], some err)
    | none =>
      ([.checkPlugins, .log (.startingPipeline pipelineStr), .parseLaunch pipelineStr,
        .getByName "audio", .setState .Playing], none)

/-! ## The streaming goroutine (lines 126-146) -/

/-- Where the streaming goroutine stands: blocked on `<-connected` (line 127), about to open the
stream (line 130), at the top of the loop (line 136), holding a pulled sample it is about to
write (line 141), or returned. -/
inductive PC
  | waiting
  | opening
  | pulling
  | writing (s : GstSample)
  | done
deriving DecidableEq, Repr

/-- The streaming goroutine: its program counter and how many pulls and writes it has issued. -/
structure Coord where
  pc : PC
  pulls : Nat
  writes : Nat
deriving DecidableEq, Repr

/-- The goroutine as spawned by `go func() { ... }()` on line 126. -/
def Coord.init : Coord :=
  { pc := .waiting, pulls := 0, writes := 0 }

/-- One step of the streaming goroutine and the actions the step performs.  `closed` tells
whether the channel `connected` is closed: the receive of line 127 returns only then. -/
def coordStep (env : Env) (closed : Bool) (c : Coord) : Coord × List Event :=
  match c.pc with
  | .waiting =>
    if closed then ({ c with pc := .opening }, [.recvConnected, .log .startAudioStreaming])
    else (c, [])
  | .opening =>
    match GetOpusAudioStream env with
    | (evs, some err) => ({ c with pc := .done }, evs ++ [.log (.failedToGetStream err)])
    | (evs, none) => ({ c with pc := .pulling }, evs)
  | .pulling =>
    match gstStream.PullSample (env.element c.pulls) with
    | .err e =>
      ({ c with pc := .done, pulls := c.pulls + 1 },
        [.pullSample (.err e), .log (.failedToReadChunk e)])
    | .sample s =>
      ({ c with pc := .writing s, pulls := c.pulls + 1 }, [.pullSample (.sample s)])
  | .writing s =>
    match env.track c.writes with
    | some e =>
      ({ c with pc := .done, writes := c.writes + 1 },
        [.writeSample (toMediaSample s) (some e), .log (.failedToWriteSample e)])
    | none =>
      ({ c with pc := .pulling, writes := c.writes + 1 }, [.writeSample (toMediaSample s) none])
  | .done => (c, [])

/-- The goroutine scheduled `n` times in a row after `connected` was closed. -/
def runCoord (env : Env) : Nat → Coord → Coord × List Event
  | 0, c => (c, [])
  | n + 1, c =>
    ((runCoord env n (coordStep env true c).1).1,
      (coordStep env true c).2 ++ (runCoord env n (coordStep env true c).1).2)

/-- The function `startServeAudio` (lines 117-148): the actions it performs itself, the goroutine
it spawns (`none` when it returns before line 126) and the error it returns. -/
def startServeAudio (env : Env) : List Event × Option Coord × Option GoError :=
  match env.newTrack with
  | some err => ([.newTrack], none, some (fmtErrorf "failed to create track: " err))
  | none =>
    match env.addTrack with
    | some err => ([.newTrack, .addTrack], none, some (fmtErrorf "failed to add track: " err))
    | none => ([.newTrack, .addTrack], some Coord.init, none)

/-! ## Reading a trace -/

/-- The samples handed to `track.WriteSample`, in order. -/
def writesOf : List Event → List MediaSample
  | [] => []
  | .writeSample s _ :: evs => s :: writesOf evs
  | _ :: evs => writesOf evs

/-- The samples `stream.PullSample` returned, in order. -/
def pulledOf : List Event → List GstSample
  | [] => []
  | .pullSample (.sample s) :: evs => s :: pulledOf evs
  | _ :: evs => pulledOf evs

/-- An action on the media source or on the track: a step of `GetOpusAudioStream`, a pull or a
write. -/
def Event.isMedia : Event → Bool
  | .checkPlugins => true
  | .parseLaunch _ => true
  | .getByName _ => true
  | .setState _ => true
  | .pullSample _ => true
  | .writeSample _ _ => true
  | _ => false

/-- A pull or a write. -/
def Event.isPullOrWrite : Event → Bool
  | .pullSample _ => true
  | .writeSample _ _ => true
  | _ => false

/-! ## Bytes, results, session descriptions -/

/-- The byte with value `n` (reduced modulo 256, as a Go conversion `byte(n)` does). -/
def byte (n : Nat) : Byte :=
  ⟨n % 256, Nat.mod_lt _ (by decide)⟩

/-- The bytes of an ASCII string literal. -/
def ascii (s : String) : List Byte :=
  s.toList.map (fun c => byte c.toNat)

/-- The result pair `(value, error)` of a fallible Go function: either the value with a nil
error, or the error. -/
inductive Result (α : Type)
  | ok (a : α)
  | err (e : GoError)
deriving DecidableEq, Repr

/-- The type `webrtc.SDPType`, a Go `int`. -/
abbrev SDPType := Int

/-- The constant `webrtc.SDPTypeOffer`. -/
def SDPTypeOffer : SDPType := 1

/-- The constant `webrtc.SDPTypePranswer`. -/
def SDPTypePranswer : SDPType := 2

/-- The constant `webrtc.SDPTypeAnswer`. -/
def SDPTypeAnswer : SDPType := 3

/-- The constant `webrtc.SDPTypeRollback`. -/
def SDPTypeRollback : SDPType := 4

/-- The method `SDPType.String`: the four defined types have a name, every other value prints
as `unknown`. -/
def SDPType.String (t : SDPType) : String :=
  if t = SDPTypeOffer then "offer"
  else if t = SDPTypePranswer then "pranswer"
  else if t = SDPTypeAnswer then "answer"
  else if t = SDPTypeRollback then "rollback"
  else "unknown"

/-- One of the four defined SDP types. -/
def SDPType.isValid (t : SDPType) : Bool :=
  t = SDPTypeOffer || t = SDPTypePranswer || t = SDPTypeAnswer || t = SDPTypeRollback

/-- The exported fields of `webrtc.SessionDescription`, the two that travel as JSON: the type tag
(field `Type`, a reserved word here) and the SDP text, a Go string, that is any sequence of bytes. -/
structure SessionDescription where
  Type_ : SDPType
  SDP : List Byte
deriving DecidableEq, Repr

/-! ## `encoding/base64`, standard encoding -/

/-- The alphabet of `base64.StdEncoding`. -/
def encodeStd : List Byte :=
  ascii "ABCDEFGHIJKLMNOPQRSTUVWXYZabcdefghijklmnopqrstuvwxyz0123456789+/"

/-- The character for a 6-bit value. -/
def b64Char (n : Nat) : Byte :=
  encodeStd.getD n 0

/-- The decode map of the encoding: the 6-bit value of an alphabet character, `none` for every
other byte. -/
def decodeMap (c : Byte) : Option Nat :=
  (List.range 64).find? (fun n => b64Char n = c)

/-- The function `base64.StdEncoding.EncodeToString`: three bytes become four characters, a last
group of one or two bytes is padded with `=`. -/
def base64Encode : List Byte → List Byte
  | [] => []
  | [a] =>
    [b64Char (a.val * 65536 / 262144 % 64), b64Char (a.val * 65536 / 4096 % 64), 61, 61]
  | [a, b] =>
    [b64Char ((a.val * 65536 + b.val * 256) / 262144 % 64),
      b64Char ((a.val * 65536 + b.val * 256) / 4096 % 64),
      b64Char ((a.val * 65536 + b.val * 256) / 64 % 64), 61]
  | a :: b :: c :: rest =>
    b64Char ((a.val * 65536 + b.val * 256 + c.val) / 262144 % 64) ::
      b64Char ((a.val * 65536 + b.val * 256 + c.val) / 4096 % 64) ::
      b64Char ((a.val * 65536 + b.val * 256 + c.val) / 64 % 64) ::
      b64Char ((a.val * 65536 + b.val * 256 + c.val) % 64) :: base64Encode rest

/-- The quanta of a base64 text from which line breaks were removed: four alphabet characters
give three bytes; padding is accepted in the last quantum only, `xx==` giving one byte and
`xxx=` two. -/
def base64DecodeQuanta : List Byte → Option (List Byte)
  | [] => some []
  | a :: b :: c :: d :: rest =>
    match decodeMap a, decodeMap b with
    | some x, some y =>
      match decodeMap c with
      | some z =>
        match decodeMap d with
        | some w =>
          match base64DecodeQuanta rest with
          | some out =>
            some (byte ((x * 262144 + y * 4096 + z * 64 + w) / 65536) ::
              byte ((x * 262144 + y * 4096 + z * 64 + w) / 256) ::
              byte (x * 262144 + y * 4096 + z * 64 + w) :: out)
          | none => none
        | none =>
          if d.val = 61 ∧ rest = [] then
            some [byte ((x * 262144 + y * 4096 + z * 64) / 65536),
              byte ((x * 262144 + y * 4096 + z * 64) / 256)]
          else none
      | none =>
        if c.val = 61 ∧ d.val = 61 ∧ rest = [] then
          some [byte ((x * 262144 + y * 4096) / 65536)]
        else none
    | _, _ => none
  | _ => none

/-- The function `base64.StdEncoding.DecodeString`: carriage returns and line feeds are ignored,
the rest is decoded quantum by quantum.  The result is the decoded bytes, or `none` when the
library returns an error (a `CorruptInputError`). -/
def base64Decode (s : List Byte) : Option (List Byte) :=
  base64DecodeQuanta (s.filter (fun c => c.val ≠ 13 ∧ c.val ≠ 10))

/-! ## `unicode/utf8` -/

/-- The constant `utf8.RuneError`, U+FFFD. -/
def RuneError : Nat := 0xFFFD

/-- The tables `first` and `acceptRanges` of package `utf8`: for a leading byte, the length of
the sequence and the range the second byte must lie in; `none` for a byte that starts no
multi-byte sequence. -/
def utf8First (s0 : Byte) : Option (Nat × Nat × Nat) :=
  if 0xC2 ≤ s0.val ∧ s0.val ≤ 0xDF then some (2, 0x80, 0xBF)
  else if s0.val = 0xE0 then some (3, 0xA0, 0xBF)
  else if 0xE1 ≤ s0.val ∧ s0.val ≤ 0xEC then some (3, 0x80, 0xBF)
  else if s0.val = 0xED then some (3, 0x80, 0x9F)
  else if 0xEE ≤ s0.val ∧ s0.val ≤ 0xEF then some (3, 0x80, 0xBF)
  else if s0.val = 0xF0 then some (4, 0x90, 0xBF)
  else if 0xF1 ≤ s0.val ∧ s0.val ≤ 0xF3 then some (4, 0x80, 0xBF)
  else if s0.val = 0xF4 then some (4, 0x80, 0x8F)
  else none

/-- The function `utf8.DecodeRune`: the first rune of the bytes and its width; `(RuneError, 1)`
when the bytes do not start with a well-formed sequence, `(RuneError, 0)` when there are none. -/
def DecodeRune : List Byte → Nat × Nat
  | [] => (RuneError, 0)
  | s0 :: rest =>
    if s0.val < 0x80 then (s0.val, 1)
    else
      match utf8First s0 with
      | none => (RuneError, 1)
      | some (sz, lo, hi) =>
        match rest with
        | [] => (RuneError, 1)
        | s1 :: rest1 =>
          if s1.val < lo ∨ hi < s1.val then (RuneError, 1)
          else if sz ≤ 2 then (s0.val % 32 * 64 + s1.val % 64, 2)
          else
            match rest1 with
            | [] => (RuneError, 1)
            | s2 :: rest2 =>
              if s2.val < 0x80 ∨ 0xBF < s2.val then (RuneError, 1)
              else if sz ≤ 3 then (s0.val % 16 * 4096 + s1.val % 64 * 64 + s2.val % 64, 3)
              else
                match rest2 with
                | [] => (RuneError, 1)
                | s3 :: _ =>
                  if s3.val < 0x80 ∨ 0xBF < s3.val then (RuneError, 1)
                  else
                    (s0.val % 8 * 262144 + s1.val % 64 * 4096 + s2.val % 64 * 64 + s3.val % 64, 4)

/-- The function `utf8.EncodeRune`: a surrogate or a value above U+10FFFF is written as
U+FFFD. -/
def EncodeRune (r : Nat) : List Byte :=
  if r ≤ 0x7F then [byte r]
  else if r ≤ 0x7FF then [byte (0xC0 + r / 64), byte (0x80 + r % 64)]
  else if 0x10FFFF < r ∨ (0xD800 ≤ r ∧ r ≤ 0xDFFF) then [0xEF, 0xBF, 0xBD]
  else if r ≤ 0xFFFF then
    [byte (0xE0 + r / 4096), byte (0x80 + r / 64 % 64), byte (0x80 + r % 64)]
  else
    [byte (0xF0 + r / 262144), byte (0x80 + r / 4096 % 64), byte (0x80 + r / 64 % 64),
      byte (0x80 + r % 64)]

/-- The loop of `utf8.Valid`, bounded by the number of bytes left. -/
def validAux : Nat → List Byte → Bool
  | _, [] => true
  | 0, _ :: _ => false
  | fuel + 1, b :: rest =>
    if (DecodeRune (b :: rest)).1 = RuneError ∧ (DecodeRune (b :: rest)).2 = 1 then false
    else validAux fuel ((b :: rest).drop (DecodeRune (b :: rest)).2)

/-- The function `utf8.Valid`: the bytes are a sequence of well-formed UTF-8 encodings. -/
def utf8Valid (s : List Byte) : Bool :=
  validAux s.length s

/-! ## `encoding/json`: writing -/

/-- The digits `hex` of package `json`. -/
def hex (n : Nat) : Byte :=
  (ascii "0123456789abcdef").getD n 0

/-- The escape the encoder writes for an ASCII byte, with HTML escaping on as `json.Marshal`
has it: bytes from 0x20 on are copied, except the quote, the backslash and the three characters
`<`, `>`, `&`. -/
def escapeASCII (b : Byte) : List Byte :=
  if b.val = 92 ∨ b.val = 34 then [92, b]
  else if b.val = 8 then [92, 98]
  else if b.val = 12 then [92, 102]
  else if b.val = 10 then [92, 110]
  else if b.val = 13 then [92, 114]
  else if b.val = 9 then [92, 116]
  else if b.val < 32 ∨ b.val = 60 ∨ b.val = 62 ∨ b.val = 38 then
    [92, 117, 48, 48, hex (b.val / 16), hex (b.val % 16)]
  else [b]

/-- The loop of the encoder function `appendString`, bounded by the number of bytes left: the
text between the two quotes.  Bytes that are not well-formed UTF-8 become the escape of U+FFFD,
and U+2028 and U+2029 are escaped. -/
def appendStringBody : Nat → List Byte → List Byte
  | _, [] => []
  | 0, _ :: _ => []
  | fuel + 1, b :: rest =>
    if b.val < 0x80 then escapeASCII b ++ appendStringBody fuel rest
    else if (DecodeRune (b :: rest)).1 = RuneError ∧ (DecodeRune (b :: rest)).2 = 1 then
      ascii "\\ufffd" ++ appendStringBody fuel rest
    else if (DecodeRune (b :: rest)).1 = 0x2028 ∨ (DecodeRune (b :: rest)).1 = 0x2029 then
      ascii "\\u202" ++ hex ((DecodeRune (b :: rest)).1 % 16) ::
        appendStringBody fuel ((b :: rest).drop (DecodeRune (b :: rest)).2)
    else
      (b :: rest).take (DecodeRune (b :: rest)).2 ++
        appendStringBody fuel ((b :: rest).drop (DecodeRune (b :: rest)).2)

/-- The encoder function `appendString`: a Go string as a JSON string literal. -/
def appendString (s : List Byte) : List Byte :=
  34 :: appendStringBody s.length s ++ [34]

/-- The method `SDPType.MarshalJSON`: `json.Marshal(t.String())`. -/
def SDPType.MarshalJSON (t : SDPType) : List Byte :=
  appendString (ascii t.String)

/-- The call `json.Marshal(answer)` on a `*webrtc.SessionDescription`: `null` for the nil
pointer, else the object of the two exported fields in declaration order.  The error result of
the library is always nil on this type. -/
def jsonMarshal : Option SessionDescription → Result (List Byte)
  | none => .ok (ascii "null")
  | some a =>
    .ok (ascii "\x7b\"type\":" ++ SDPType.MarshalJSON a.Type_ ++ ascii ",\"sdp\":" ++
      appendString a.SDP ++ ascii "\x7d")

/-! ## `encoding/json`: reading -/

/-- A parsed JSON value; strings are held unquoted, numbers as their text. -/
inductive JSON
  | null
  | bool (b : Bool)
  | number (raw : List Byte)
  | string (s : List Byte)
  | array (elems : List JSON)
  | object (members : List (List Byte × JSON))

/-- The value of a hexadecimal digit. -/
def hexVal (c : Byte) : Option Nat :=
  if 48 ≤ c.val ∧ c.val ≤ 57 then some (c.val - 48)
  else if 97 ≤ c.val ∧ c.val ≤ 102 then some (c.val - 87)
  else if 65 ≤ c.val ∧ c.val ≤ 70 then some (c.val - 55)
  else none

/-- The decoder function `getu4`: the number written by a `\uXXXX` escape at the head of the
bytes, `none` (the library's `-1`) when the bytes do not start with one. -/
def getu4 : List Byte → Option Nat
  | e :: u :: a :: b :: c :: d :: _ =>
    if e.val = 92 ∧ u.val = 117 then
      match hexVal a, hexVal b, hexVal c, hexVal d with
      | some x, some y, some z, some w => some (((x * 16 + y) * 16 + z) * 16 + w)
      | _, _, _, _ => none
    else none
  | _ => none

/-- The byte a one-character escape stands for: the characters the scanner accepts after a
backslash, `u` apart. -/
def unescape (e : Byte) : Option Byte :=
  if e.val = 34 ∨ e.val = 92 ∨ e.val = 47 then some e
  else if e.val = 98 then some 8
  else if e.val = 102 then some 12
  else if e.val = 110 then some 10
  else if e.val = 114 then some 13
  else if e.val = 116 then some 9
  else none

/-- Puts bytes in front of the text of a parse result. -/
def prepend (pre : List Byte) : Option (List Byte × List Byte) → Option (List Byte × List Byte)
  | some (s, rest) => some (pre ++ s, rest)
  | none => none

/-- A JSON string from just after its opening quote: the scanner's check and the decoder
function `unquote` in one pass, bounded by the number of bytes left.  The result is the
unquoted text and the input after the closing quote.  Control characters are refused; escapes
are resolved, a surrogate pair giving one rune and a lone surrogate U+FFFD; bytes that are
not well-formed UTF-8 are replaced by U+FFFD. -/
def parseStringBody : Nat → List Byte → Option (List Byte × List Byte)
  | 0, _ => none
  | _ + 1, [] => none
  | fuel + 1, c :: rest =>
    if c.val = 34 then some ([], rest)
    else if c.val = 92 then
      match rest with
      | [] => none
      | e :: rest1 =>
        if e.val = 117 then
          match getu4 (c :: rest) with
          | none => none
          | some rr =>
            if 0xD800 ≤ rr ∧ rr < 0xE000 then
              match getu4 (rest1.drop 4) with
              | some rr1 =>
                if rr < 0xDC00 ∧ 0xDC00 ≤ rr1 ∧ rr1 < 0xE000 then
                  prepend (EncodeRune ((rr - 0xD800) * 1024 + (rr1 - 0xDC00) + 0x10000))
                    (parseStringBody fuel (rest1.drop 10))
                else prepend (EncodeRune RuneError) (parseStringBody fuel (rest1.drop 4))
              | none => prepend (EncodeRune RuneError) (parseStringBody fuel (rest1.drop 4))
            else prepend (EncodeRune rr) (parseStringBody fuel (rest1.drop 4))
        else
          match unescape e with
          | some b => prepend [b] (parseStringBody fuel rest1)
          | none => none
    else if c.val < 32 then none
    else if c.val < 128 then prepend [c] (parseStringBody fuel rest)
    else
      prepend (EncodeRune (DecodeRune (c :: rest)).1)
        (parseStringBody fuel ((c :: rest).drop (DecodeRune (c :: rest)).2))

/-- A JSON string from just after its opening quote. -/
def parseString (inp : List Byte) : Option (List Byte × List Byte) :=
  parseStringBody inp.length inp

/-- JSON white space: space, tab, carriage return, line feed. -/
def isSpace (c : Byte) : Bool :=
  c.val = 32 || c.val = 9 || c.val = 13 || c.val = 10

/-- The input without its leading white space. -/
def skipSpace : List Byte → List Byte
  | [] => []
  | c :: rest => if isSpace c then skipSpace rest else c :: rest

/-- The input after the given literal text, if it starts with it. -/
def stripLit : List Byte → List Byte → Option (List Byte)
  | [], inp => some inp
  | _ :: _, [] => none
  | l :: lit, c :: inp => if l = c then stripLit lit inp else none

/-- A decimal digit. -/
def isDigit (c : Byte) : Bool :=
  48 ≤ c.val && c.val ≤ 57

/-- The leading digits of the input and what follows them. -/
def spanDigits : List Byte → List Byte × List Byte
  | [] => ([], [])
  | c :: rest =>
    if isDigit c then (c :: (spanDigits rest).1, (spanDigits rest).2) else ([], c :: rest)

/-- The integer part of a number: `0`, or a digit from 1 to 9 followed by digits. -/
def scanInt : List Byte → Option (List Byte × List Byte)
  | [] => none
  | c :: rest =>
    if c.val = 48 then some ([c], rest)
    else if 49 ≤ c.val ∧ c.val ≤ 57 then some (c :: (spanDigits rest).1, (spanDigits rest).2)
    else none

/-- The optional fraction of a number: a point followed by at least one digit. -/
def scanFrac : List Byte → Option (List Byte × List Byte)
  | [] => some ([], [])
  | c :: rest =>
    if c.val = 46 then
      match spanDigits rest with
      | ([], _) => none
      | (d :: ds, rest1) => some (c :: d :: ds, rest1)
    else some ([], c :: rest)

/-- The optional exponent of a number: `e` or `E`, an optional sign, at least one digit. -/
def scanExp : List Byte → Option (List Byte × List Byte)
  | [] => some ([], [])
  | c :: rest =>
    if c.val = 101 ∨ c.val = 69 then
      match rest with
      | [] => none
      | s :: rest1 =>
        if s.val = 43 ∨ s.val = 45 then
          match spanDigits rest1 with
          | ([], _) => none
          | (d :: ds, rest2) => some (c :: s :: d :: ds, rest2)
        else
          match spanDigits (s :: rest1) with
          | ([], _) => none
          | (d :: ds, rest2) => some (c :: d :: ds, rest2)
    else some ([], c :: rest)

/-- A JSON number: its text and the input after it. -/
def parseNumber (inp : List Byte) : Option (List Byte × List Byte) :=
  match inp with
  | [] => none
  | c :: rest =>
    match scanInt (if c.val = 45 then rest else c :: rest) with
    | none => none
    | some (i, rest1) =>
      match scanFrac rest1 with
      | none => none
      | some (f, rest2) =>
        match scanExp rest2 with
        | none => none
        | some (e, rest3) => some ((if c.val = 45 then [c] else []) ++ i ++ f ++ e, rest3)

/-- The constant `maxNestingDepth` of the scanner. -/
def maxNestingDepth : Nat := 10000

mutual
/-- A JSON value at the head of the input (after white space): the value and the input after it;
`none` on a syntax error.  `depth` counts the arrays and objects the value lies in; the first
argument bounds the recursion. -/
def parseValue : Nat → Nat → List Byte → Option (JSON × List Byte)
  | 0, _, _ => none
  | fuel + 1, depth, inp =>
    match skipSpace inp with
    | [] => none
    | c :: rest =>
      if c.val = 123 then
        if maxNestingDepth ≤ depth then none
        else
          match skipSpace rest with
          | [] => none
          | c1 :: rest1 =>
            if c1.val = 125 then some (.object [], rest1)
            else
              match parseMembers fuel (depth + 1) (c1 :: rest1) with
              | some (ms, rest2) => some (.object ms, rest2)
              | none => none
      else if c.val = 91 then
        if maxNestingDepth ≤ depth then none
        else
          match skipSpace rest with
          | [] => none
          | c1 :: rest1 =>
            if c1.val = 93 then some (.array [], rest1)
            else
              match parseElems fuel (depth + 1) (c1 :: rest1) with
              | some (vs, rest2) => some (.array vs, rest2)
              | none => none
      else if c.val = 34 then
        match parseString rest with
        | some (s, rest1) => some (.string s, rest1)
        | none => none
      else if c.val = 116 then
        match stripLit (ascii "rue") rest with
        | some rest1 => some (.bool true, rest1)
        | none => none
      else if c.val = 102 then
        match stripLit (ascii "alse") rest with
        | some rest1 => some (.bool false, rest1)
        | none => none
      else if c.val = 110 then
        match stripLit (ascii "ull") rest with
        | some rest1 => some (.null, rest1)
        | none => none
      else
        match parseNumber (c :: rest) with
        | some (raw, rest1) => some (.number raw, rest1)
        | none => none
/-- The members of an object from its first key on, up to and including the closing brace. -/
def parseMembers : Nat → Nat → List Byte → Option (List (List Byte × JSON) × List Byte)
  | 0, _, _ => none
  | fuel + 1, depth, inp =>
    match skipSpace inp with
    | [] => none
    | c :: rest =>
      if c.val = 34 then
        match parseString rest with
        | none => none
        | some (key, rest1) =>
          match skipSpace rest1 with
          | [] => none
          | c2 :: rest2 =>
            if c2.val = 58 then
              match parseValue fuel depth rest2 with
              | none => none
              | some (v, rest3) =>
                match skipSpace rest3 with
                | [] => none
                | c4 :: rest4 =>
                  if c4.val = 44 then
                    match parseMembers fuel depth rest4 with
                    | some (ms, rest5) => some ((key, v) :: ms, rest5)
                    | none => none
                  else if c4.val = 125 then some ([(key, v)], rest4)
                  else none
            else none
      else none
/-- The elements of an array from its first element on, up to and including the closing
bracket. -/
def parseElems : Nat → Nat → List Byte → Option (List JSON × List Byte)
  | 0, _, _ => none
  | fuel + 1, depth, inp =>
    match parseValue fuel depth inp with
    | none => none
    | some (v, rest1) =>
      match skipSpace rest1 with
      | [] => none
      | c :: rest2 =>
        if c.val = 44 then
          match parseElems fuel depth rest2 with
          | some (vs, rest3) => some (v :: vs, rest3)
          | none => none
        else if c.val = 93 then some ([v], rest2)
        else none
end

/-- The check `json.Valid` together with the parse: the value the whole input spells, `none`
when the input is not one JSON value surrounded by optional white space. -/
def parseJSON (inp : List Byte) : Option JSON :=
  match parseValue (inp.length + 1) 0 inp with
  | some (v, rest) => if skipSpace rest = [] then some v else none
  | none => none

/-- An ASCII letter in upper case, any other byte unchanged. -/
def upperASCII (c : Byte) : Byte :=
  if 97 ≤ c.val ∧ c.val ≤ 122 then byte (c.val - 32) else c

/-- An ASCII letter in lower case, any other byte unchanged. -/
def lowerASCII (c : Byte) : Byte :=
  if 65 ≤ c.val ∧ c.val ≤ 90 then byte (c.val + 32) else c

/-- The loop of the decoder's key folding, bounded by the number of bytes left. -/
def foldNameAux : Nat → List Byte → List Byte
  | _, [] => []
  | 0, _ :: _ => []
  | fuel + 1, c :: rest =>
    if c.val = 0xC5 ∧ rest.take 1 = [0xBF] then 83 :: foldNameAux fuel (rest.drop 1)
    else if c.val = 0xE2 ∧ rest.take 2 = [0x84, 0xAA] then 75 :: foldNameAux fuel (rest.drop 2)
    else upperASCII c :: foldNameAux fuel rest

/-- The decoder's folding of an object key: ASCII letters in upper case, and the two runes that
fold onto an ASCII letter, U+017F onto `S` and U+212A onto `K`. -/
def foldName (key : List Byte) : List Byte :=
  foldNameAux key.length key

/-- The two JSON fields of `webrtc.SessionDescription`, tagged `type` and `sdp`. -/
inductive Field
  | Type_
  | SDP
deriving DecidableEq, Repr

/-- The field an object key names: the exact tag, or failing that a tag equal to it under
folding. -/
def fieldOf (key : List Byte) : Option Field :=
  if foldName key = ascii "TYPE" then some .Type_
  else if foldName key = ascii "SDP" then some .SDP
  else none

/-- The loop of `toLower`, bounded by the number of bytes left. -/
def toLowerAux : Nat → List Byte → List Byte
  | _, [] => []
  | 0, _ :: _ => []
  | fuel + 1, c :: rest =>
    if c.val = 0xE2 ∧ rest.take 2 = [0x84, 0xAA] then 107 :: toLowerAux fuel (rest.drop 2)
    else lowerASCII c :: toLowerAux fuel rest

/-- The function `strings.ToLower` as far as a comparison with an ASCII word can tell: ASCII
letters in lower case, and the Kelvin sign U+212A, whose lower case is `k`. -/
def toLower (s : List Byte) : List Byte :=
  toLowerAux s.length s

/-- The method `SDPType.UnmarshalJSON`: the value is unmarshalled into a Go string (a JSON
`null` leaves it empty, anything but a string or `null` is a type error), and the string in
lower case must be one of the four names, or the method returns `webrtc.ErrUnknownType`.  The
result is the type, or `none` when the method returns an error. -/
def SDPType.UnmarshalJSON : JSON → Option SDPType
  | .string s =>
    if toLower s = ascii "offer" then some SDPTypeOffer
    else if toLower s = ascii "pranswer" then some SDPTypePranswer
    else if toLower s = ascii "answer" then some SDPTypeAnswer
    else if toLower s = ascii "rollback" then some SDPTypeRollback
    else none
  | _ => none

/-- The decoder on the members of an object, in order: a key that names no field is skipped;
the field `sdp` takes a string and is left alone by `null`; the field `type` is handed to
`SDPType.UnmarshalJSON`.  A field named twice keeps the last value.  The result is `none` when
`json.Unmarshal` returns an error: it does when `sdp` has a value that is neither a string nor
`null` (a type error, which the decoder saves and returns at the end) and when
`SDPType.UnmarshalJSON` returns an error (which ends the decoding at once). -/
def decodeMembers : List (List Byte × JSON) → SessionDescription → Option SessionDescription
  | [], sd => some sd
  | (key, v) :: ms, sd =>
    match fieldOf key with
    | none => decodeMembers ms sd
    | some .SDP =>
      match v with
      | .string s => decodeMembers ms { sd with SDP := s }
      | .null => decodeMembers ms sd
      | _ => none
    | some .Type_ =>
      match SDPType.UnmarshalJSON v with
      | none => none
      | some t => decodeMembers ms { sd with Type_ := t }

/-- The call `json.Unmarshal(b, &offer)` on a zero `webrtc.SessionDescription`: the members are
decoded for an object, `null` changes nothing, and the library returns an error (`none`) for
bytes that are not one JSON value, for a value that is neither an object nor `null`, and
when the decoding of the members fails. -/
def jsonUnmarshal (b : List Byte) : Option SessionDescription :=
  match parseJSON b with
  | none => none
  | some (.object ms) => decodeMembers ms { Type_ := 0, SDP := [] }
  | some .null => some { Type_ := 0, SDP := [] }
  | some _ => none

/-! ## The two codec functions of `main.go` -/

/-- The messages of the errors the two decoding libraries return, which `main.go` passes on
and prints without looking into them.  They are parameters of the embedding: `base64 s` is the
message of the `CorruptInputError` that `base64.StdEncoding.DecodeString` returns for the
string `s` (`illegal base64 data at input byte N`), and `json b` the message of the error that
`json.Unmarshal` returns for the bytes `b`. -/
structure ErrorTexts where
  base64 : List Byte → String
  json : List Byte → String

/-- The function `decodeOffer` (lines 97-107): the error of either library call is returned as
it is. -/
def decodeOffer (texts : ErrorTexts) (inp : List Byte) : Result SessionDescription :=
  match base64Decode inp with
  | none => .err (.other (texts.base64 inp))
  | some b =>
    match jsonUnmarshal b with
    | none => .err (.other (texts.json b))
    | some offer => .ok offer

/-- The function `encodeAnswer` (lines 109-115); the argument is a pointer, `none` being nil. -/
def encodeAnswer (answer : Option SessionDescription) : Result (List Byte) :=
  match jsonMarshal answer with
  | .err e => .err e
  | .ok b => .ok (base64Encode b)

/-! ## The session negotiator -/

/-- The options `webrtc.AnswerOptions` of `CreateAnswer`. -/
structure AnswerOptions where
  VoiceActivityDetection : Bool
deriving DecidableEq, Repr

/-- What `main.go` uses of `*webrtc.PeerConnection`, over the states `σ` of the connection.
Every method takes the state it is called in and gives the state it leaves.
`gatheringComplete` is the environment's part in the receive of line 202: the state in which
the channel returned by `GatheringCompletePromise` is found closed, `none` when gathering
never completes.  `LocalDescription` is a nilable pointer. -/
structure PeerConnection (σ : Type) where
  SetRemoteDescription : σ → SessionDescription → σ × Option GoError
  CreateAnswer : σ → Option AnswerOptions → σ × Result SessionDescription
  GatheringCompletePromise : σ → σ
  SetLocalDescription : σ → SessionDescription → σ × Option GoError
  gatheringComplete : σ → Option σ
  LocalDescription : σ → Option SessionDescription

/-- The operations `createAnswer` performs on the peer connection, with their arguments. -/
inductive PCCall
  | SetRemoteDescription (desc : SessionDescription)
  | CreateAnswer (options : Option AnswerOptions)
  | GatheringCompletePromise
  | SetLocalDescription (desc : SessionDescription)
  | waitGatheringComplete
  | LocalDescription
deriving DecidableEq, Repr

/-- How a call ends: it returns a value, or it blocks for ever on a channel receive. -/
inductive Outcome (α : Type)
  | returned (a : α)
  | blocked
deriving DecidableEq, Repr

/-- A run of `createAnswer`: the operations performed, in order, the state the connection is
left in, and the outcome, the returned pair being `(*webrtc.SessionDescription, error)`. -/
structure AnswerRun (σ : Type) where
  calls : List PCCall
  state : σ
  outcome : Outcome (Option SessionDescription × Option GoError)

/-- The function `createAnswer` (lines 190-204), called with a non-nil offer. -/
def createAnswer {σ : Type} (pc : PeerConnection σ) (s0 : σ) (offer : SessionDescription) :
    AnswerRun σ :=
  match pc.SetRemoteDescription s0 offer with
  | (s1, some err) =>
    { calls := [.SetRemoteDescription offer], state := s1, outcome := .returned (none, some err) }
  | (s1, none) =>
    match pc.CreateAnswer s1 none with
    | (s2, .err err) =>
      { calls := [.SetRemoteDescription offer, .CreateAnswer none], state := s2,
        outcome := .returned (none, some err) }
    | (s2, .ok answer) =>
      match pc.SetLocalDescription (pc.GatheringCompletePromise s2) answer with
      | (s4, some err) =>
        { calls := [.SetRemoteDescription offer, .CreateAnswer none, .GatheringCompletePromise,
            .SetLocalDescription answer],
          state := s4, outcome := .returned (none, some err) }
      | (s4, none) =>
        match pc.gatheringComplete s4 with
        | none =>
          { calls := [.SetRemoteDescription offer, .CreateAnswer none,
              .GatheringCompletePromise, .SetLocalDescription answer, .waitGatheringComplete],
            state := s4, outcome := .blocked }
        | some s5 =>
          { calls := [.SetRemoteDescription offer, .CreateAnswer none,
              .GatheringCompletePromise, .SetLocalDescription answer, .waitGatheringComplete,
              .LocalDescription],
            state := s5, outcome := .returned (pc.LocalDescription s5, none) }

/-! ## The signaling endpoint -/

/-- The UTF-8 bytes of a string. -/
def utf8 : List Char → List Byte
  | [] => []
  | c :: cs => EncodeRune c.toNat ++ utf8 cs

/-- What the `/signal` handler does, in order: a log line, an operation on the peer connection,
a call `w.Write(b)` with the error it returned, a call `http.Error(w, msg, code)`. -/
inductive HandlerEvent
  | log (text : String)
  | pc (call : PCCall)
  | write (b : List Byte) (result : Option GoError)
  | httpError (msg : String) (code : Nat)
deriving DecidableEq, Repr

/-- The constant `http.StatusInternalServerError`. -/
def StatusInternalServerError : Nat := 500

/-- The function `respondError` (lines 92-95). -/
def respondError (err : GoError) : List HandlerEvent :=
  [.log ("error: " ++ err.Error), .httpError err.Error StatusInternalServerError]

/-- A run of the `/signal` handler: what it did, the state it left the peer connection in, and
whether it returned (it does not when `createAnswer` blocks). -/
structure SignalRun (σ : Type) where
  events : List HandlerEvent
  state : σ
  returned : Bool

/-- The handler registered for `/signal` (lines 63-88).  `readAll` is the result of
`ioutil.ReadAll(r.Body)` and `writeErr` the error `w.Write` returns. -/
def signalHandler {σ : Type} (texts : ErrorTexts) (pc : PeerConnection σ) (s0 : σ)
    (readAll : Result (List Byte)) (writeErr : Option GoError) : SignalRun σ :=
  match readAll with
  | .err err =>
    { events := respondError (fmtErrorf "failed to read offer request body: " err),
      state := s0, returned := true }
  | .ok rb =>
    match decodeOffer texts rb with
    | .err err =>
      { events := respondError (fmtErrorf "failed to decode offer body: " err),
        state := s0, returned := true }
    | .ok offer =>
      match (createAnswer pc s0 offer).outcome with
      | .blocked =>
        { events := (createAnswer pc s0 offer).calls.map .pc,
          state := (createAnswer pc s0 offer).state, returned := false }
      | .returned (_, some err) =>
        { events := (createAnswer pc s0 offer).calls.map .pc ++
            respondError (fmtErrorf "failed to create answer: " err),
          state := (createAnswer pc s0 offer).state, returned := true }
      | .returned (answer, none) =>
        match encodeAnswer answer with
        | .err err =>
          { events := (createAnswer pc s0 offer).calls.map .pc ++
              respondError (fmtErrorf "failed to encode answer: " err),
            state := (createAnswer pc s0 offer).state, returned := true }
        | .ok eAnswer =>
          match writeErr with
          | some err =>
            { events := (createAnswer pc s0 offer).calls.map .pc ++
                .write eAnswer (some err) ::
                  respondError (fmtErrorf "failed to write response: " err),
              state := (createAnswer pc s0 offer).state, returned := true }
          | none =>
            { events := (createAnswer pc s0 offer).calls.map .pc ++ [.write eAnswer none],
              state := (createAnswer pc s0 offer).state, returned := true }

/-- An HTTP response as the client receives it: the status line once it is sent, the content
type header if one is set, and the body. -/
structure Response where
  status : Option Nat
  contentType : Option String
  body : List Byte
deriving DecidableEq, Repr

/-- The response before the handler touches it. -/
def Response.empty : Response :=
  { status := none, contentType := none, body := [] }

/-- What an event of the handler does to the response, as package `net/http` has it, `none`
when what the client receives is no longer determined.  `sniff` is the function
`http.DetectContentType`, a parameter of the embedding.  A successful `Write` on a response
whose status was not sent sends status 200 and, the handler having set no content type and
the data not being empty, the content type sniffed from the first 512 bytes of the data, then
the data; later it appends the data.  After a `Write` that returned an error nothing is
determined.  `http.Error` sets the content type to plain text, sends the status code (ignored
when a status was already sent), then prints the message and a line feed. -/
def Response.apply (sniff : List Byte → String) (r : Response) :
    HandlerEvent → Option Response
  | .write b none =>
    match r.status with
    | none =>
      some { status := some 200,
             contentType := if b = [] then r.contentType else some (sniff (b.take 512)),
             body := r.body ++ b }
    | some _ => some { r with body := r.body ++ b }
  | .write _ (some _) => none
  | .httpError msg code =>
    match r.status with
    | none =>
      some { status := some code, contentType := some "text/plain; charset=utf-8",
             body := r.body ++ utf8 msg.toList ++ [10] }
    | some _ => some { r with body := r.body ++ utf8 msg.toList ++ [10] }
  | .log _ => some r
  | .pc _ => some r

/-- The response a run of the handler produces, event after event. -/
def responseFrom (sniff : List Byte → String) : Option Response → List HandlerEvent →
    Option Response
  | r, [] => r
  | none, _ :: _ => none
  | some r, ev :: evs => responseFrom sniff (Response.apply sniff r ev) evs

/-- The response a run of the handler produces on a response that nothing was sent on. -/
def responseOf (sniff : List Byte → String) (events : List HandlerEvent) : Option Response :=
  responseFrom sniff (some Response.empty) events

/-- The byte strings the handler passed to `w.Write`, in order. -/
def writtenOf : List HandlerEvent → List (List Byte)
  | [] => []
  | .write b _ :: evs => b :: writtenOf evs
  | _ :: evs => writtenOf evs

/-! ## The program: the ICE callback and the streaming goroutine side by side -/

/-- The state of the running program: whether the channel `connected` is closed, whether the
process has died of a panic, the streaming goroutine if it was spawned, and everything that
happened so far. -/
structure Sys where
  closed : Bool
  panicked : Bool
  coord : Option Coord
  trace : List Event

/-- The statement `close(connected)` of line 34: closing a channel that is already closed is a
run-time panic. -/
def closeConnected (s : Sys) : Sys :=
  if s.closed then { s with panicked := true, trace := s.trace ++ [.panicCloseOfClosedChannel] }
  else { s with closed := true, trace := s.trace ++ [.closeConnected] }

/-- The callback registered with `OnICEConnectionStateChange` (lines 31-36). -/
def onICEConnectionStateChange (s : Sys) (state : ICEConnectionState) : Sys :=
  if state = .Connected then
    closeConnected { s with trace := s.trace ++ [.log (.iceState state)] }
  else { s with trace := s.trace ++ [.log (.iceState state)] }

/-- What the scheduler lets happen next: the transport delivers an ICE connection state to
the callback, or the streaming goroutine takes a step. -/
inductive Action
  | ice (state : ICEConnectionState)
  | coord
deriving DecidableEq, Repr

/-- One scheduled action.  Nothing runs in a process that has died; a goroutine that was not
spawned, or is blocked, or has returned, does nothing. -/
def Sys.step (env : Env) (s : Sys) (a : Action) : Sys :=
  if s.panicked then s
  else
    match a with
    | .ice state => onICEConnectionStateChange s state
    | .coord =>
      match s.coord with
      | none => s
      | some c =>
        { s with coord := some (coordStep env s.closed c).1,
                 trace := s.trace ++ (coordStep env s.closed c).2 }

/-- The program after a schedule of actions. -/
def Sys.run (env : Env) (s : Sys) (schedule : List Action) : Sys :=
  schedule.foldl (Sys.step env) s

/-- The program when `main` has made the channel (line 30), registered the callback and run
`startServeAudio` (lines 38-42), before any ICE event. -/
def Sys.init (env : Env) : Sys :=
  { closed := false, panicked := false, coord := (startServeAudio env).2.1,
    trace := (startServeAudio env).1 ++
      match (startServeAudio env).2.2 with
      | some err => [.log (.failedToServeAudio err)]
      | none => [] }

/-- The sample the streaming goroutine holds between a pull and the write of it. -/
def inFlight : Option Coord → List MediaSample
  | some { pc := .writing s, .. } => [toMediaSample s]
  | _ => []

/-- No action on the media source or the track comes before the first `close(connected)`. -/
def noMediaBeforeClose : List Event → Bool
  | [] => true
  | .closeConnected :: _ => true
  | e :: evs => !e.isMedia && noMediaBeforeClose evs

/-- The actions of the loop on a run of frames each pulled and written without error: pull,
write, pull, write, and so on. -/
def frameEvents : List GstSample → List Event
  | [] => []
  | f :: fs => .pullSample (.sample f) :: .writeSample (toMediaSample f) none :: frameEvents fs

/-- The actions of `GetOpusAudioStream` when it succeeds. -/
def openEvents : List Event :=
  [.checkPlugins, .log (.startingPipeline pipelineStr), .parseLaunch pipelineStr,
    .getByName "audio", .setState .Playing]

/-- A pull or a write that returned an error. -/
def Event.isFailure : Event → Bool
  | .pullSample (.err _) => true
  | .writeSample _ (some _) => true
  | _ => false

/-- The log line of the loop for a failed pull or write (lines 138 and 142). -/
def Event.report : Event → List Event
  | .pullSample (.err e) => [.log (.failedToReadChunk e)]
  | .writeSample _ (some e) => [.log (.failedToWriteSample e)]
  | _ => []

/-- The invariant of the running program: no action on the media source or the track comes
before the first `close(connected)`; while the channel is open nothing of the kind has
happened and the streaming goroutine, if there is one, is still blocked on the receive; once
it is closed the close is in the trace; and the samples written, with the one in flight, are
the samples pulled. -/
def Sys.Inv (s : Sys) : Prop :=
  noMediaBeforeClose s.trace = true ∧
    (s.closed = false →
      (∀ e ∈ s.trace, e.isMedia = false) ∧ ∀ c, s.coord = some c → c.pc = .waiting) ∧
    (s.closed = true → Event.closeConnected ∈ s.trace) ∧
    writesOf s.trace ++ inFlight s.coord = (pulledOf s.trace).map toMediaSample

/-! ## Sample environments -/

/-- A source at end of stream from the first pull on: the element fails and reports EOS. -/
def envEOS : Env :=
  { newTrack := none, addTrack := none, checkPlugins := none, parseLaunch := none,
    element := fun _ => .failed "could not pull a sample from appsink" true,
    track := fun _ => none }

/-- Five frames of nonzero duration (20, 10, 20, 40 and 60 ms). -/
def fiveFrames : List GstSample :=
  [{ Data := [1, 2, 3], Duration := 20000000 }, { Data := [4, 5], Duration := 10000000 },
    { Data := [6], Duration := 20000000 }, { Data := [7, 8], Duration := 40000000 },
    { Data := [9, 10, 11], Duration := 60000000 }]

/-- A source that yields the five frames and is then at end of stream; every write succeeds. -/
def envFiveFrames : Env :=
  { newTrack := none, addTrack := none, checkPlugins := none, parseLaunch := none,
    element := fun k =>
      match fiveFrames[k]? with
      | some f => .sample f
      | none => .failed "could not pull a sample from appsink" true,
    track := fun _ => none }

/-- A source whose second pull fails without being at end of stream. -/
def envPullFails : Env :=
  { newTrack := none, addTrack := none, checkPlugins := none, parseLaunch := none,
    element := fun k =>
      if k = 0 then .sample { Data := [1, 2, 3], Duration := 20000000 }
      else .failed "could not pull a sample from appsink" false,
    track := fun _ => none }

/-- A source whose one frame has the largest unsigned 64-bit duration, 2^64 - 1 ns, and which
is then at end of stream; every write succeeds. -/
def envHugeDuration : Env :=
  { newTrack := none, addTrack := none, checkPlugins := none, parseLaunch := none,
    element := fun k =>
      if k = 0 then .sample { Data := [1, 2, 3], Duration := 18446744073709551615 }
      else .failed "could not pull a sample from appsink" true,
    track := fun _ => none }

/-- Sample error texts: the message `base64.StdEncoding.DecodeString` returns for a string
whose first byte is not base64, such as `%`, and the message `json.Unmarshal` returns for
JSON text that ends early; they are used at such inputs only. -/
def sampleTexts : ErrorTexts :=
  { base64 := fun _ => "illegal base64 data at input byte 0",
    json := fun _ => "unexpected end of JSON input" }

/-- A sample content sniffer: the type `http.DetectContentType` gives to text with no binary
byte and no known signature. -/
def sampleSniff : List Byte → String :=
  fun _ => "text/plain; charset=utf-8"

/-- The state of the sample peer connection: which of its steps fails (1 for
`SetRemoteDescription`, 2 for `CreateAnswer`, 3 for `SetLocalDescription`, anything else for
none), whether gathering ever completes, and the local description. -/
structure DemoState where
  failAt : Nat
  gathers : Bool
  localDesc : Option SessionDescription
deriving DecidableEq, Repr

/-- A sample peer connection: the answer it creates is `v=0`, and gathering appends a
candidate line to the local description. -/
def demoPC : PeerConnection DemoState where
  SetRemoteDescription s _ :=
    (s, if s.failAt = 1 then some (.other "remote description rejected") else none)
  CreateAnswer s _ :=
    (s, if s.failAt = 2 then .err (.other "no answer") else
      .ok { Type_ := SDPTypeAnswer, SDP := ascii "v=0" })
  GatheringCompletePromise s := s
  SetLocalDescription s d :=
    if s.failAt = 3 then (s, some (.other "local description rejected"))
    else ({ s with localDesc := some d }, none)
  gatheringComplete s :=
    if s.gathers then
      some { s with localDesc :=
        s.localDesc.map (fun d => { d with SDP := d.SDP ++ ascii "a=candidate" }) }
    else none
  LocalDescription s := s.localDesc


/-! # Theorems -/

/-! ## The streaming goroutine run on its own -/

theorem runCoord_done (env : Env) (n : Nat) (c : Coord) (h : c.pc = .done) :
    runCoord env n c = (c, []) := by
  induction n with
  | zero => rfl
  | succ k ih =>
    have hs : coordStep env true c = (c, []) := by
      simp [coordStep, h]
    simp [runCoord, hs, ih]

theorem runCoord_add (env : Env) (m n : Nat) (c : Coord) :
    runCoord env (m + n) c =
      ((runCoord env n (runCoord env m c).1).1,
        (runCoord env m c).2 ++ (runCoord env n (runCoord env m c).1).2) := by
  induction m generalizing c with
  | zero => simp [runCoord]
  | succ k ih =>
    have : k + 1 + n = (k + n) + 1 := by omega
    rw [this]
    simp [runCoord, ih, List.append_assoc]

theorem coordStep_waiting (env : Env) (p w : Nat) :
    coordStep env true { pc := .waiting, pulls := p, writes := w } =
      ({ pc := .opening, pulls := p, writes := w },
        [.recvConnected, .log .startAudioStreaming]) := by
  simp [coordStep]

theorem coordStep_opening_err (env : Env) (p w : Nat) (evs : List Event) (err : GoError)
    (h : GetOpusAudioStream env = (evs, some err)) :
    coordStep env true { pc := .opening, pulls := p, writes := w } =
      ({ pc := .done, pulls := p, writes := w }, evs ++ [.log (.failedToGetStream err)]) := by
  simp [coordStep, h]

theorem coordStep_opening_ok (env : Env) (p w : Nat) (evs : List Event)
    (h : GetOpusAudioStream env = (evs, none)) :
    coordStep env true { pc := .opening, pulls := p, writes := w } =
      ({ pc := .pulling, pulls := p, writes := w }, evs) := by
  simp [coordStep, h]

theorem coordStep_pulling_err (env : Env) (p w : Nat) (err : GoError)
    (h : gstStream.PullSample (env.element p) = .err err) :
    coordStep env true { pc := .pulling, pulls := p, writes := w } =
      ({ pc := .done, pulls := p + 1, writes := w },
        [.pullSample (.err err), .log (.failedToReadChunk err)]) := by
  simp [coordStep, h]

theorem coordStep_pulling_ok (env : Env) (p w : Nat) (s : GstSample)
    (h : gstStream.PullSample (env.element p) = .sample s) :
    coordStep env true { pc := .pulling, pulls := p, writes := w } =
      ({ pc := .writing s, pulls := p + 1, writes := w }, [.pullSample (.sample s)]) := by
  simp [coordStep, h]

theorem coordStep_writing_err (env : Env) (p w : Nat) (s : GstSample) (err : GoError)
    (h : env.track w = some err) :
    coordStep env true { pc := .writing s, pulls := p, writes := w } =
      ({ pc := .done, pulls := p, writes := w + 1 },
        [.writeSample (toMediaSample s) (some err), .log (.failedToWriteSample err)]) := by
  simp [coordStep, h]

theorem coordStep_writing_ok (env : Env) (p w : Nat) (s : GstSample)
    (h : env.track w = none) :
    coordStep env true { pc := .writing s, pulls := p, writes := w } =
      ({ pc := .pulling, pulls := p, writes := w + 1 },
        [.writeSample (toMediaSample s) none]) := by
  simp [coordStep, h]

theorem coordStep_done (env : Env) (p w : Nat) :
    coordStep env true { pc := .done, pulls := p, writes := w } =
      ({ pc := .done, pulls := p, writes := w }, []) := by
  simp [coordStep]

theorem runCoord_succ (env : Env) (n : Nat) (c c1 : Coord) (evs : List Event)
    (h : coordStep env true c = (c1, evs)) :
    runCoord env (n + 1) c = ((runCoord env n c1).1, evs ++ (runCoord env n c1).2) := by
  simp [runCoord, h]

theorem pullSample_element_failed (env : Env) (p : Nat) (msg : String) (eos : Bool)
    (h : env.element p = .failed msg eos) :
    ∃ err, gstStream.PullSample (env.element p) = .err err := by
  cases eos <;> simp [gstStream.PullSample, h]

/-- Once the goroutine has returned, scheduling it longer changes nothing. -/
theorem runCoord_stable (env : Env) (m n : Nat) (c : Coord)
    (h : (runCoord env m c).1.pc = .done) (hmn : m ≤ n) :
    runCoord env n c = runCoord env m c := by
  obtain ⟨d, rfl⟩ := Nat.exists_eq_add_of_le hmn
  rw [runCoord_add, runCoord_done env d _ h]
  simp

/-- From the top of the loop, a failing pull number `p + d` ends the loop within `2 * d + 1`
steps, whatever the earlier pulls and the writes do. -/
theorem runCoord_reaches_done (env : Env) (k : Nat) (msg : String) (eos : Bool)
    (hfail : env.element k = .failed msg eos) :
    ∀ d p w : Nat, p + d = k →
      (runCoord env (2 * d + 1) { pc := .pulling, pulls := p, writes := w }).1.pc = .done := by
  intro d
  induction d with
  | zero =>
    intro p w hp
    have hp' : p = k := by omega
    subst hp'
    obtain ⟨err, herr⟩ := pullSample_element_failed env p msg eos hfail
    rw [show 2 * 0 + 1 = 0 + 1 from rfl, runCoord_succ env 0 _ _ _ (coordStep_pulling_err env p w err herr)]
    rfl
  | succ d ih =>
    intro p w hp
    cases hel : gstStream.PullSample (env.element p) with
    | err err =>
      have h1 : (runCoord env 1 { pc := .pulling, pulls := p, writes := w }).1.pc = .done := by
        rw [runCoord_succ env 0 _ _ _ (coordStep_pulling_err env p w err hel)]
        rfl
      rw [runCoord_stable env 1 _ _ h1 (by omega)]
      exact h1
    | sample s =>
      cases htr : env.track w with
      | some e =>
        have h2 : (runCoord env 2 { pc := .pulling, pulls := p, writes := w }).1.pc = .done := by
          rw [runCoord_succ env 1 _ _ _ (coordStep_pulling_ok env p w s hel),
            runCoord_succ env 0 _ _ _ (coordStep_writing_err env (p + 1) w s e htr)]
          rfl
        rw [runCoord_stable env 2 _ _ h2 (by omega)]
        exact h2
      | none =>
        have := ih (p + 1) (w + 1) (by omega)
        rw [show 2 * (d + 1) + 1 = (2 * d + 1) + 1 + 1 by omega,
          runCoord_succ env _ _ _ _ (coordStep_pulling_ok env p w s hel),
          runCoord_succ env _ _ _ _ (coordStep_writing_ok env (p + 1) w s htr)]
        exact this

/-- From the start, a failing pull number `k` ends the goroutine within `2 * k + 3` steps. -/
theorem runCoord_init_reaches_done (env : Env) (k : Nat) (msg : String) (eos : Bool)
    (hfail : env.element k = .failed msg eos) (n : Nat) (hn : 2 * k + 3 ≤ n) :
    (runCoord env n Coord.init).1.pc = .done := by
  have h : (runCoord env (2 * k + 3) Coord.init).1.pc = .done := by
    have key := runCoord_reaches_done env k msg eos hfail k 0 0 (by omega)
    rw [show 2 * k + 3 = (2 * k + 1) + 1 + 1 by omega, Coord.init,
      runCoord_succ env _ _ _ _ (coordStep_waiting env 0 0)]
    cases hop : GetOpusAudioStream env with
    | mk evs r =>
      cases r with
      | some e =>
        rw [runCoord_succ env _ _ _ _ (coordStep_opening_err env 0 0 evs e hop),
          runCoord_done env (2 * k + 1) _ rfl]
      | none =>
        rw [runCoord_succ env _ _ _ _ (coordStep_opening_ok env 0 0 evs hop)]
        exact key
  rw [runCoord_stable env _ n _ h hn]
  exact h

theorem split_nonfailure (l1 l2 pre post : List Event) (e : Event)
    (hl1 : ∀ x ∈ l1, x.isFailure = false) (he : e.isFailure = true)
    (h : l1 ++ l2 = pre ++ e :: post) :
    ∃ pre', pre = l1 ++ pre' ∧ l2 = pre' ++ e :: post := by
  induction l1 generalizing pre with
  | nil => exact ⟨pre, by simp, by simpa using h⟩
  | cons a l ih =>
    cases pre with
    | nil =>
      simp at h
      have := hl1 a (by simp)
      rw [h.1] at this
      rw [this] at he
      cases he
    | cons b pre1 =>
      simp at h
      obtain ⟨pre', h1, h2⟩ := ih pre1 (fun x hx => hl1 x (by simp [hx])) h.2
      exact ⟨pre', by simp [h.1, h1], h2⟩

theorem getOpus_nonfailure (env : Env) : ∀ x ∈ (GetOpusAudioStream env).1, x.isFailure = false := by
  intro x hx
  unfold GetOpusAudioStream at hx
  split at hx
  · simp at hx; subst hx; rfl
  · split at hx
    · simp at hx; rcases hx with h | h | h <;> subst h <;> rfl
    · simp at hx; rcases hx with h | h | h | h | h <;> subst h <;> rfl

/-- A failed pull or write is followed by its log line and by nothing else, and the goroutine
has returned. -/
theorem failure_stops (env : Env) :
    ∀ (n : Nat) (c : Coord) (pre post : List Event) (e : Event),
      (runCoord env n c).2 = pre ++ e :: post → e.isFailure = true →
      post = e.report ∧ (runCoord env n c).1.pc = .done := by
  intro n
  induction n with
  | zero => intro c pre post e h; simp [runCoord] at h
  | succ n ih =>
    intro c pre post e h he
    have two : ∀ (a b : Event), b.isFailure = false → [a, b] = pre ++ e :: post →
        a = e ∧ post = [b] := by
      intro a b hb hab
      cases pre with
      | nil => simp at hab; exact ⟨hab.1, hab.2.symm⟩
      | cons x pre1 =>
        cases pre1 with
        | nil => simp at hab; rw [← hab.2.1, hb] at he; cases he
        | cons y pre2 => simp at hab
    rcases c with ⟨pc, p, w⟩
    cases pc with
    | waiting =>
      rw [runCoord_succ env _ _ _ _ (coordStep_waiting env p w)] at h ⊢
      obtain ⟨pre', _, h2⟩ := split_nonfailure _ _ pre post e
        (by intro x hx; simp at hx; rcases hx with h | h <;> subst h <;> rfl) he h
      exact ih _ _ _ _ h2 he
    | opening =>
      cases hop : GetOpusAudioStream env with
      | mk evs r =>
        have hevs := getOpus_nonfailure env
        rw [hop] at hevs
        cases r with
        | some err =>
          rw [runCoord_succ env _ _ _ _ (coordStep_opening_err env p w evs err hop),
            runCoord_done env n _ rfl] at h ⊢
          obtain ⟨pre', _, h2⟩ := split_nonfailure (evs ++ [.log (.failedToGetStream err)]) []
            pre post e
            (by
              intro x hx
              simp at hx
              rcases hx with hx | hx
              · exact hevs x hx
              · subst hx; rfl) he (by simpa using h)
          simp at h2
        | none =>
          rw [runCoord_succ env _ _ _ _ (coordStep_opening_ok env p w evs hop)] at h ⊢
          obtain ⟨pre', _, h2⟩ := split_nonfailure _ _ pre post e hevs he h
          exact ih _ _ _ _ h2 he
    | pulling =>
      cases hel : gstStream.PullSample (env.element p) with
      | err err =>
        rw [runCoord_succ env _ _ _ _ (coordStep_pulling_err env p w err hel),
          runCoord_done env n _ rfl] at h ⊢
        obtain ⟨h1, h2⟩ := two (.pullSample (.err err)) (.log (.failedToReadChunk err)) rfl
          (by simpa using h)
        subst h1
        exact ⟨h2, rfl⟩
      | sample s =>
        rw [runCoord_succ env _ _ _ _ (coordStep_pulling_ok env p w s hel)] at h ⊢
        obtain ⟨pre', _, h2⟩ := split_nonfailure _ _ pre post e
          (by intro x hx; simp at hx; subst hx; rfl) he h
        exact ih _ _ _ _ h2 he
    | writing s =>
      cases htr : env.track w with
      | some err =>
        rw [runCoord_succ env _ _ _ _ (coordStep_writing_err env p w s err htr),
          runCoord_done env n _ rfl] at h ⊢
        obtain ⟨h1, h2⟩ := two (.writeSample (toMediaSample s) (some err))
          (.log (.failedToWriteSample err)) rfl (by simpa using h)
        subst h1
        exact ⟨h2, rfl⟩
      | none =>
        rw [runCoord_succ env _ _ _ _ (coordStep_writing_ok env p w s htr)] at h ⊢
        obtain ⟨pre', _, h2⟩ := split_nonfailure _ _ pre post e
          (by intro x hx; simp at hx; subst hx; rfl) he h
        exact ih _ _ _ _ h2 he
    | done =>
      rw [runCoord_succ env _ _ _ _ (coordStep_done env p w)] at h ⊢
      simp only [List.nil_append] at h
      exact ih _ _ _ _ h he

theorem runCoord_frames (env : Env) (frames : List GstSample) :
    ∀ p w : Nat,
      (∀ i f, frames[i]? = some f → env.element (p + i) = .sample f) →
      (∀ i, i < frames.length → env.track (w + i) = none) →
      runCoord env (2 * frames.length) { pc := .pulling, pulls := p, writes := w } =
        ({ pc := .pulling, pulls := p + frames.length, writes := w + frames.length },
          frameEvents frames) := by
  induction frames with
  | nil => intro p w _ _; simp [runCoord, frameEvents]
  | cons f fs ih =>
    intro p w hel htr
    have h0 : env.element p = .sample f := by
      have := hel 0 f (by simp)
      simpa using this
    have hw0 : env.track w = none := by
      have := htr 0 (by simp)
      simpa using this
    have hlen : 2 * (f :: fs).length = 2 * fs.length + 1 + 1 := by
      simp [List.length_cons]; omega
    rw [hlen]
    have ih' := ih (p + 1) (w + 1)
      (fun i g hg => by
        have := hel (i + 1) g (by simpa using hg)
        rw [← this]; congr 1; omega)
      (fun i hi => by
        have := htr (i + 1) (by simpa using hi)
        rw [← this]; congr 1; omega)
    simp only [runCoord, coordStep, gstStream.PullSample, h0, hw0, ih', frameEvents,
      List.length_cons]
    refine Prod.ext ?_ ?_
    · simp; constructor <;> omega
    · simp

theorem writesOf_append (a b : List Event) : writesOf (a ++ b) = writesOf a ++ writesOf b := by
  induction a with
  | nil => rfl
  | cons e a ih => cases e <;> simp [writesOf, ih]

theorem pulledOf_append (a b : List Event) : pulledOf (a ++ b) = pulledOf a ++ pulledOf b := by
  induction a with
  | nil => rfl
  | cons e a ih =>
    cases e with
    | pullSample r => cases r <;> simp [pulledOf, ih]
    | _ => simp [pulledOf, ih]

theorem writesOf_frameEvents (frames : List GstSample) :
    writesOf (frameEvents frames) = frames.map toMediaSample := by
  induction frames with
  | nil => rfl
  | cons f fs ih => simp [frameEvents, writesOf, ih]

theorem pulledOf_frameEvents (frames : List GstSample) :
    pulledOf (frameEvents frames) = frames := by
  induction frames with
  | nil => rfl
  | cons f fs ih => simp [frameEvents, pulledOf, ih]

theorem timeDuration_small (x : Nat) (h : x < 2 ^ 63) : timeDuration x = (x : Int) := by
  have h1 : x % 2 ^ 64 = x := Nat.mod_eq_of_lt (by omega)
  unfold timeDuration
  rw [h1, if_pos h]

theorem timeDuration_large (x : Nat) (h1 : 2 ^ 63 ≤ x) (h2 : x < 2 ^ 64) :
    timeDuration x = (x : Int) - 2 ^ 64 := by
  have h3 : x % 2 ^ 64 = x := Nat.mod_eq_of_lt h2
  unfold timeDuration
  rw [h3, if_neg (by omega)]

/-- The whole run of the goroutine on a source of `frames` followed by end of stream. -/
theorem runCoord_frames_then_eos (env : Env) (frames : List GstSample) (msg : String)
    (hcheck : env.checkPlugins = none) (hlaunch : env.parseLaunch = none)
    (hframes : ∀ i f, frames[i]? = some f → env.element i = .sample f)
    (heos : env.element frames.length = .failed msg true)
    (hwrite : ∀ k, k < frames.length → env.track k = none) :
    runCoord env (2 * frames.length + 3) Coord.init =
      ({ pc := .done, pulls := frames.length + 1, writes := frames.length },
        [.recvConnected, .log .startAudioStreaming] ++ openEvents ++ frameEvents frames ++
          [.pullSample (.err .EOF), .log (.failedToReadChunk .EOF)]) := by
  have hop : GetOpusAudioStream env = (openEvents, none) := by
    simp [GetOpusAudioStream, hcheck, hlaunch, openEvents]
  have hloop := runCoord_frames env frames 0 0
    (fun i f hf => by simpa using hframes i f hf) (fun i hi => by simpa using hwrite i hi)
  have hpull : gstStream.PullSample (env.element (0 + frames.length)) = .err .EOF := by
    simp [gstStream.PullSample, heos]
  rw [show 2 * frames.length + 3 = (2 * frames.length + 1) + 1 + 1 by omega, Coord.init,
    runCoord_succ env _ _ _ _ (coordStep_waiting env 0 0),
    runCoord_succ env _ _ _ _ (coordStep_opening_ok env 0 0 openEvents hop),
    runCoord_add, hloop]
  simp only []
  rw [runCoord_succ env 0 _ _ _ (coordStep_pulling_err env _ _ .EOF hpull)]
  simp [runCoord]

/-- C2, as stated, fails: on a source whose one frame states the duration 2^64 - 1 ns and
which is then at end of stream, with every track write succeeding, the goroutine returns
having pulled that frame and issued one write, and the write carries the frame's payload
with the duration -1 ns, which is not the frame's stated duration; so it is not true that on
every such source the i-th write carries the i-th frame's stated duration. -/
theorem huge_duration_is_not_written_as_stated :
    envHugeDuration.newTrack = none ∧ envHugeDuration.addTrack = none ∧
      envHugeDuration.checkPlugins = none ∧ envHugeDuration.parseLaunch = none ∧
      envHugeDuration.element 0 =
        .sample { Data := [1, 2, 3], Duration := 18446744073709551615 } ∧
      envHugeDuration.element 1 = .failed "could not pull a sample from appsink" true ∧
      (∀ k, envHugeDuration.track k = none) ∧
      (runCoord envHugeDuration 5 Coord.init).1.pc = .done ∧
      pulledOf (runCoord envHugeDuration 5 Coord.init).2 =
        [{ Data := [1, 2, 3], Duration := 18446744073709551615 }] ∧
      writesOf (runCoord envHugeDuration 5 Coord.init).2 =
        [{ Data := [1, 2, 3], Duration := -1 }] ∧
      (-1 : Int) ≠ ((18446744073709551615 : Nat) : Int) ∧
      ¬ ∀ (env : Env) (frames : List GstSample) (msg : String),
          env.newTrack = none → env.addTrack = none →
          env.checkPlugins = none → env.parseLaunch = none →
          (∀ i f, frames[i]? = some f → env.element i = .sample f) →
          env.element frames.length = .failed msg true →
          (∀ k, k < frames.length → env.track k = none) →
          writesOf (runCoord env (2 * frames.length + 3) Coord.init).2 =
            frames.map (fun f => ({ Data := f.Data, Duration := (f.Duration : Int) } :
              MediaSample)) := by
  have hw : writesOf (runCoord envHugeDuration 5 Coord.init).2 =
      [{ Data := [1, 2, 3], Duration := -1 }] := by decide
  refine ⟨rfl, rfl, rfl, rfl, rfl, rfl, fun _ => rfl, by decide, by decide, hw, by decide,
    fun h => ?_⟩
  have h1 := h envHugeDuration [{ Data := [1, 2, 3], Duration := 18446744073709551615 }]
    "could not pull a sample from appsink" rfl rfl rfl rfl
    (by
      intro i f hf
      cases i with
      | zero =>
        simp only [List.getElem?_cons_zero, Option.some.injEq] at hf
        rw [← hf]
        rfl
      | succ j => simp at hf)
    rfl (fun _ _ => rfl)
  rw [show 2 * [({ Data := [1, 2, 3], Duration := 18446744073709551615 } : GstSample)].length
    + 3 = 5 from rfl, hw] at h1
  revert h1
  decide

/-- C2, amended. When the track is created and added, `startServeAudio` returns nil and spawns
the streaming goroutine; and on a source that yields `frames` and is then at end of stream,
with every track write succeeding, that goroutine, given at least `2 * n + 3` steps for `n`
frames once `connected` is closed, returns having issued exactly `n` track writes, in the
order the frames were pulled, the i-th write carrying the payload of the i-th frame and its
duration converted by `time.Duration`: the stated duration when that is below 2^63 ns, and
the stated duration minus 2^64 ns when it is 2^63 ns or more. -/
theorem stream_writes_every_frame (env : Env) (frames : List GstSample) (msg : String)
    (hnew : env.newTrack = none) (hadd : env.addTrack = none)
    (hcheck : env.checkPlugins = none) (hlaunch : env.parseLaunch = none)
    (hframes : ∀ i f, frames[i]? = some f → env.element i = .sample f)
    (heos : env.element frames.length = .failed msg true)
    (hwrite : ∀ k, k < frames.length → env.track k = none)
    (n : Nat) (hn : 2 * frames.length + 3 ≤ n) :
    startServeAudio env = ([.newTrack, .addTrack], some Coord.init, none) ∧
      (runCoord env n Coord.init).1.pc = .done ∧
      (runCoord env n Coord.init).2 =
        [.recvConnected, .log .startAudioStreaming] ++ openEvents ++ frameEvents frames ++
          [.pullSample (.err .EOF), .log (.failedToReadChunk .EOF)] ∧
      writesOf (runCoord env n Coord.init).2 =
        frames.map (fun f => { Data := f.Data, Duration := timeDuration f.Duration }) ∧
      (writesOf (runCoord env n Coord.init).2).length = frames.length ∧
      pulledOf (runCoord env n Coord.init).2 = frames ∧
      (∀ f ∈ frames, f.Duration < 2 ^ 63 → timeDuration f.Duration = (f.Duration : Int)) ∧
      ∀ f ∈ frames, 2 ^ 63 ≤ f.Duration → f.Duration < 2 ^ 64 →
        timeDuration f.Duration = (f.Duration : Int) - 2 ^ 64 := by
  have hrun := runCoord_frames_then_eos env frames msg hcheck hlaunch hframes heos hwrite
  have hstable := runCoord_stable env (2 * frames.length + 3) n Coord.init
    (by rw [hrun]) hn
  rw [hstable, hrun]
  have hw : writesOf ([.recvConnected, .log .startAudioStreaming] ++ openEvents ++
      frameEvents frames ++ [.pullSample (.err .EOF), .log (.failedToReadChunk .EOF)]) =
      frames.map (fun f => { Data := f.Data, Duration := timeDuration f.Duration }) := by
    simp only [writesOf_append, writesOf_frameEvents]
    simp [writesOf, openEvents]
    intro a _
    rfl
  refine ⟨by simp [startServeAudio, hnew, hadd], rfl, rfl, hw, ?_, ?_,
    fun f _ hf => timeDuration_small f.Duration hf,
    fun f _ h1 h2 => timeDuration_large f.Duration h1 h2⟩
  · rw [hw, List.length_map]
  · simp only [pulledOf_append, pulledOf_frameEvents]
    simp [pulledOf, openEvents]

/-- The five frames of the sample source give exactly five writes, in order, each with its
frame's payload and duration. -/
theorem stream_writes_every_frame_witness :
    (runCoord envFiveFrames 13 Coord.init).1.pc = .done ∧
      writesOf (runCoord envFiveFrames 13 Coord.init).2 =
        [{ Data := [1, 2, 3], Duration := 20000000 }, { Data := [4, 5], Duration := 10000000 },
          { Data := [6], Duration := 20000000 }, { Data := [7, 8], Duration := 40000000 },
          { Data := [9, 10, 11], Duration := 60000000 }] :=
  have h := stream_writes_every_frame envFiveFrames fiveFrames
    "could not pull a sample from appsink" rfl rfl rfl rfl
    (by intro i f hf; simp [envFiveFrames, hf]) (by decide) (by intro k _; rfl) 13 (by decide)
  ⟨h.2.1, h.2.2.2.1.trans (by decide)⟩

/-- C4. The code departs from the claim: on a source at end of stream from the first pull,
`gstStream.PullSample` returns the `io.EOF` sentinel, and the goroutine, which does not test
for the sentinel, logs the failure report `failed to read chunk: EOF` before it returns; the
run does terminate, and its events end with that pull and that report, so no further pull
follows. -/
theorem eos_is_reported_as_failure :
    gstStream.PullSample (envEOS.element 0) = .err .EOF ∧
      (runCoord envEOS 3 Coord.init).1.pc = .done ∧
      (runCoord envEOS 3 Coord.init).2 =
        [.recvConnected, .log .startAudioStreaming] ++ openEvents ++
          [.pullSample (.err .EOF), .log (.failedToReadChunk .EOF)] ∧
      (LogLine.failedToReadChunk .EOF).text = "failed to read chunk: EOF" ∧
      (LogLine.failedToReadChunk .EOF).isFailureReport = true ∧
      ¬ ∀ line, Event.log line ∈ (runCoord envEOS 3 Coord.init).2 →
          line.isFailureReport = false := by
  refine ⟨by decide, by decide, by decide, by decide, by decide, fun h => ?_⟩
  have := h (.failedToReadChunk .EOF) (by decide)
  cases this

/-- What the loop does at end of stream on every source: `gstStream.PullSample` returns
`io.EOF` exactly when the element's pull fails and the element reports EOS; and for every
source whose pull number `k` is such an end of stream, the goroutine, given at least
`2 * k + 3` steps, has returned, and an end-of-stream pull result is followed by the log line
`failed to read chunk: EOF` and by nothing else: no further pull and no write. -/
theorem eos_ends_loop (env : Env) (k : Nat) (msg : String)
    (heos : env.element k = .failed msg true) (n : Nat) (hn : 2 * k + 3 ≤ n) :
    gstStream.PullSample (env.element k) = .err .EOF ∧
      (∀ r, gstStream.PullSample r = .err .EOF ↔ ∃ m, r = .failed m true) ∧
      (runCoord env n Coord.init).1.pc = .done ∧
      ∀ pre post, (runCoord env n Coord.init).2 = pre ++ .pullSample (.err .EOF) :: post →
        post = [.log (.failedToReadChunk .EOF)] := by
  refine ⟨by simp [gstStream.PullSample, heos], ?_,
    runCoord_init_reaches_done env k msg true heos n hn, ?_⟩
  · intro r
    cases r with
    | sample s => simp [gstStream.PullSample]
    | failed m b => cases b <;> simp [gstStream.PullSample]
  · intro pre post h
    exact (failure_stops env n Coord.init pre post _ h rfl).1

/-- On the sample source of five frames the end-of-stream pull is followed by its log line
only. -/
theorem eos_ends_loop_witness :
    (runCoord envFiveFrames 13 Coord.init).1.pc = .done ∧
      (runCoord envFiveFrames 13 Coord.init).2.drop 18 = [.log (.failedToReadChunk .EOF)] :=
  have h := eos_ends_loop envFiveFrames 5 "could not pull a sample from appsink" rfl 13
    (by decide)
  ⟨h.2.2.1, h.2.2.2 ((runCoord envFiveFrames 13 Coord.init).2.take 17)
    ((runCoord envFiveFrames 13 Coord.init).2.drop 18) (by decide)⟩

/-- C5. In every run of the streaming goroutine, whatever the source and the track do, a pull
that returns an error (end of stream or not) or a write that returns an error is the first
and only one, it is followed by its failure report in the log and by nothing else (no
further pull, no further write), and the goroutine has returned: scheduling it longer
changes nothing. -/
theorem first_error_is_fatal (env : Env) (n : Nat) (pre post : List Event) (e : Event)
    (hrun : (runCoord env n Coord.init).2 = pre ++ e :: post) (he : e.isFailure = true) :
    (∀ err, e = .pullSample (.err err) → post = [.log (.failedToReadChunk err)]) ∧
      (∀ s err, e = .writeSample s (some err) → post = [.log (.failedToWriteSample err)]) ∧
      (∃ line, post = [.log line] ∧ line.isFailureReport = true) ∧
      (∀ x ∈ post, x.isPullOrWrite = false) ∧
      (∀ x ∈ pre, x.isFailure = false) ∧
      (runCoord env n Coord.init).1.pc = .done ∧
      ∀ m, n ≤ m → runCoord env m Coord.init = runCoord env n Coord.init := by
  obtain ⟨hpost, hdone⟩ := failure_stops env n Coord.init pre post e hrun he
  have hline : ∃ line, post = [.log line] ∧ line.isFailureReport = true := by
    rw [hpost]
    cases e with
    | pullSample r =>
      cases r with
      | err err => exact ⟨_, rfl, rfl⟩
      | sample s => cases he
    | writeSample s r =>
      cases r with
      | some err => exact ⟨_, rfl, rfl⟩
      | none => cases he
    | _ => cases he
  refine ⟨?_, ?_, hline, ?_, ?_, hdone, fun m hm => runCoord_stable env n m _ hdone hm⟩
  · intro err h; subst h; exact hpost
  · intro s err h; subst h; exact hpost
  · obtain ⟨line, hl, _⟩ := hline
    intro x hx
    rw [hl] at hx
    simp at hx
    subst hx
    rfl
  · intro x hx
    cases hxf : x.isFailure with
    | false => rfl
    | true =>
      obtain ⟨p1, p2, hp⟩ := List.append_of_mem hx
      have h2 : (runCoord env n Coord.init).2 = p1 ++ x :: (p2 ++ e :: post) := by
        rw [hrun, hp]; simp
      have h3 := (failure_stops env n Coord.init p1 _ x h2 hxf).1
      have hmem : e ∈ x.report := by rw [← h3]; simp
      cases x with
      | pullSample r =>
        cases r with
        | err err => simp [Event.report] at hmem; subst hmem; cases he
        | sample s => cases hxf
      | writeSample s r =>
        cases r with
        | some err => simp [Event.report] at hmem; subst hmem; cases he
        | none => cases hxf
      | _ => cases hxf

/-- On the sample source whose second pull fails, the failed pull is followed by its log line
only and the goroutine has returned. -/
theorem first_error_is_fatal_witness :
    (runCoord envPullFails 6 Coord.init).2.drop 10 =
        [.log (.failedToReadChunk (.other "could not pull a sample from appsink"))] ∧
      (runCoord envPullFails 6 Coord.init).1.pc = .done :=
  have h := first_error_is_fatal envPullFails 6 ((runCoord envPullFails 6 Coord.init).2.take 9)
    ((runCoord envPullFails 6 Coord.init).2.drop 10)
    (.pullSample (.err (.other "could not pull a sample from appsink"))) (by decide) rfl
  ⟨h.1 _ rfl, h.2.2.2.2.2.1⟩

theorem getOpus_never_closes (env : Env) :
    ∀ x ∈ (GetOpusAudioStream env).1, x ≠ .setState .Null := by
  intro x hx
  unfold GetOpusAudioStream at hx
  split at hx
  · simp at hx; subst hx; simp
  · split at hx
    · simp at hx; rcases hx with h | h | h <;> subst h <;> simp
    · simp at hx; rcases hx with h | h | h | h | h <;> subst h <;> simp

theorem coordStep_never_closes (env : Env) (c : Coord) :
    ∀ x ∈ (coordStep env true c).2, x ≠ .setState .Null := by
  intro x hx
  rcases c with ⟨pc, p, w⟩
  cases pc with
  | waiting =>
    rw [coordStep_waiting] at hx
    simp at hx
    rcases hx with h | h <;> subst h <;> simp
  | opening =>
    have hevs := getOpus_never_closes env
    cases hop : GetOpusAudioStream env with
    | mk evs r =>
      rw [hop] at hevs
      cases r with
      | some err =>
        rw [coordStep_opening_err env p w evs err hop] at hx
        simp at hx
        rcases hx with h | h
        · exact hevs x h
        · subst h; simp
      | none =>
        rw [coordStep_opening_ok env p w evs hop] at hx
        exact hevs x hx
  | pulling =>
    cases hel : gstStream.PullSample (env.element p) with
    | err err =>
      rw [coordStep_pulling_err env p w err hel] at hx
      simp at hx
      rcases hx with h | h <;> subst h <;> simp
    | sample s =>
      rw [coordStep_pulling_ok env p w s hel] at hx
      simp at hx
      subst hx; simp
  | writing s =>
    cases htr : env.track w with
    | some err =>
      rw [coordStep_writing_err env p w s err htr] at hx
      simp at hx
      rcases hx with h | h <;> subst h <;> simp
    | none =>
      rw [coordStep_writing_ok env p w s htr] at hx
      simp at hx
      subst hx; simp
  | done =>
    rw [coordStep_done] at hx
    simp at hx

theorem runCoord_never_closes (env : Env) :
    ∀ (n : Nat) (c : Coord), ∀ x ∈ (runCoord env n c).2, x ≠ .setState .Null := by
  intro n
  induction n with
  | zero => intro c x hx; simp [runCoord] at hx
  | succ n ih =>
    intro c x hx
    simp only [runCoord, List.mem_append] at hx
    rcases hx with hx | hx
    · exact coordStep_never_closes env c x hx
    · exact ih _ x hx

/-- C10, what the code does: `gstStream.Close` puts the pipeline in state `Null`, and no run of
the streaming goroutine ever does that; on a source that is opened and at end of stream at
the first pull the goroutine returns with the pipeline left in state `Playing`. -/
theorem stream_is_never_closed :
    gstStream.Close.1 = [.setState .Null] ∧
      (∀ (env : Env) (n : Nat), ∀ e ∈ gstStream.Close.1, e ∉ (runCoord env n Coord.init).2) ∧
      (runCoord envEOS 3 Coord.init).1.pc = .done ∧
      (runCoord envEOS 3 Coord.init).2 =
        [.recvConnected, .log .startAudioStreaming, .checkPlugins,
          .log (.startingPipeline pipelineStr), .parseLaunch pipelineStr, .getByName "audio",
          .setState .Playing, .pullSample (.err .EOF), .log (.failedToReadChunk .EOF)] := by
  refine ⟨rfl, ?_, by decide, by decide⟩
  intro env n e he hmem
  simp [gstStream.Close] at he
  subst he
  exact runCoord_never_closes env n Coord.init _ hmem rfl

/-! ## The program under any schedule -/

theorem writesOf_nonmedia (t : List Event) (h : ∀ e ∈ t, e.isMedia = false) :
    writesOf t = [] := by
  induction t with
  | nil => rfl
  | cons e t ih =>
    have he := h e (by simp)
    have ht := ih (fun x hx => h x (by simp [hx]))
    cases e <;> simp_all [writesOf, Event.isMedia]

theorem pulledOf_nonmedia (t : List Event) (h : ∀ e ∈ t, e.isMedia = false) :
    pulledOf t = [] := by
  induction t with
  | nil => rfl
  | cons e t ih =>
    have he := h e (by simp)
    have ht := ih (fun x hx => h x (by simp [hx]))
    cases e with
    | pullSample r => simp [Event.isMedia] at he
    | _ => simp_all [pulledOf]

theorem noMediaBeforeClose_append_nonmedia (t x : List Event)
    (ht : noMediaBeforeClose t = true) (hx : ∀ e ∈ x, e.isMedia = false) :
    noMediaBeforeClose (t ++ x) = true := by
  induction t with
  | nil =>
    induction x with
    | nil => rfl
    | cons e x ih =>
      have he := hx e (by simp)
      have hr := ih (fun y hy => hx y (by simp [hy]))
      cases e <;> simp_all [noMediaBeforeClose]
  | cons e t ih =>
    cases e <;> simp_all [noMediaBeforeClose]

theorem noMediaBeforeClose_append_closed (t x : List Event)
    (ht : noMediaBeforeClose t = true) (hc : Event.closeConnected ∈ t) :
    noMediaBeforeClose (t ++ x) = true := by
  induction t with
  | nil => simp at hc
  | cons e t ih =>
    cases e <;> simp_all [noMediaBeforeClose]

theorem noMediaBeforeClose_split (t pre post : List Event) (e : Event)
    (ht : noMediaBeforeClose t = true) (h : t = pre ++ e :: post) (he : e.isMedia = true) :
    Event.closeConnected ∈ pre := by
  induction pre generalizing t with
  | nil =>
    subst h
    cases e <;> simp_all [noMediaBeforeClose, Event.isMedia]
  | cons a pre ih =>
    subst h
    by_cases ha : a = .closeConnected
    · simp [ha]
    · have : noMediaBeforeClose (pre ++ e :: post) = true := by
        cases a <;> simp_all [noMediaBeforeClose]
      have := ih _ this rfl
      simp [this]

theorem coordStep_inFlight (env : Env) (b : Bool) (c : Coord) :
    writesOf (coordStep env b c).2 ++ inFlight (some (coordStep env b c).1) =
      inFlight (some c) ++ (pulledOf (coordStep env b c).2).map toMediaSample := by
  rcases c with ⟨pc, p, w⟩
  cases pc with
  | waiting => cases b <;> simp [coordStep, writesOf, pulledOf, inFlight]
  | opening =>
    unfold coordStep GetOpusAudioStream
    simp only
    cases env.checkPlugins <;> cases env.parseLaunch <;>
      simp [writesOf, pulledOf, inFlight]
  | pulling =>
    cases hel : gstStream.PullSample (env.element p) <;>
      simp [coordStep, hel, writesOf, pulledOf, inFlight]
  | writing s =>
    cases htr : env.track w <;> simp [coordStep, htr, writesOf, pulledOf, inFlight]
  | done => simp [coordStep, writesOf, pulledOf, inFlight]

theorem coordStep_waiting_open (env : Env) (c : Coord) (h : c.pc = .waiting) :
    coordStep env false c = (c, []) := by
  simp [coordStep, h]

theorem Sys.Inv_init (env : Env) : (Sys.init env).Inv := by
  have hnm : ∀ e ∈ (Sys.init env).trace, e.isMedia = false := by
    intro e he
    cases h1 : env.newTrack with
    | some e1 =>
      simp [Sys.init, startServeAudio, h1] at he
      rcases he with rfl | rfl <;> rfl
    | none =>
      cases h2 : env.addTrack with
      | some e2 =>
        simp [Sys.init, startServeAudio, h1, h2] at he
        rcases he with rfl | rfl | rfl <;> rfl
      | none =>
        simp [Sys.init, startServeAudio, h1, h2] at he
        rcases he with rfl | rfl <;> rfl
  have hc : ∀ c, (Sys.init env).coord = some c → c.pc = .waiting := by
    intro c hc
    unfold Sys.init startServeAudio at hc
    cases h1 : env.newTrack <;> cases h2 : env.addTrack <;> simp [h1, h2] at hc
    subst hc; rfl
  refine ⟨?_, fun _ => ⟨hnm, hc⟩, fun h => by simp [Sys.init] at h, ?_⟩
  · have := noMediaBeforeClose_append_nonmedia [] _ rfl hnm
    simpa using this
  · rw [writesOf_nonmedia _ hnm, pulledOf_nonmedia _ hnm]
    cases hco : (Sys.init env).coord with
    | none => rfl
    | some c =>
      have := hc c hco
      rcases c with ⟨pc, p, w⟩
      simp at this
      subst this
      rfl

theorem Sys.Inv_append_nonmedia (s : Sys) (x : List Event) (closed panicked : Bool)
    (hinv : s.Inv) (hx : ∀ e ∈ x, e.isMedia = false)
    (hclosed : closed = false → s.closed = false)
    (hmem : closed = true → s.closed = true ∨ Event.closeConnected ∈ x) :
    Sys.Inv { closed := closed, panicked := panicked, coord := s.coord, trace := s.trace ++ x } := by
  obtain ⟨h1, h2, h3, h4⟩ := hinv
  refine ⟨noMediaBeforeClose_append_nonmedia _ _ h1 hx, ?_, ?_, ?_⟩
  · intro hc
    obtain ⟨ha, hb⟩ := h2 (hclosed hc)
    refine ⟨?_, hb⟩
    intro e he
    simp only [List.mem_append] at he
    rcases he with he | he
    · exact ha e he
    · exact hx e he
  · intro hc
    simp only [List.mem_append]
    rcases hmem hc with h | h
    · exact Or.inl (h3 h)
    · exact Or.inr h
  · simp only [writesOf_append, pulledOf_append, writesOf_nonmedia x hx, pulledOf_nonmedia x hx,
      List.append_nil]
    exact h4

theorem Sys.Inv_step (env : Env) (s : Sys) (a : Action) (hinv : s.Inv) :
    (Sys.step env s a).Inv := by
  unfold Sys.step
  by_cases hp : s.panicked = true
  · simp [hp, hinv]
  · simp only [hp, Bool.false_eq_true, if_false]
    cases a with
    | ice state =>
      simp only
      unfold onICEConnectionStateChange closeConnected
      by_cases hst : state = .Connected
      · simp only [hst, if_true]
        by_cases hcl : s.closed = true
        · simp only [hcl, if_true]
          have := Sys.Inv_append_nonmedia s
            [.log (.iceState .Connected), .panicCloseOfClosedChannel] true true hinv
            (by intro e he; simp at he; rcases he with rfl | rfl <;> rfl) (by simp)
            (fun _ => Or.inl hcl)
          simpa [hcl] using this
        · have hcl' : s.closed = false := by simpa using hcl
          simp only [hcl', Bool.false_eq_true, if_false]
          have := Sys.Inv_append_nonmedia s
            [.log (.iceState .Connected), .closeConnected] true s.panicked hinv
            (by intro e he; simp at he; rcases he with rfl | rfl <;> rfl) (by simp)
            (fun _ => Or.inr (by simp))
          simpa using this
      · simp only [hst, if_false]
        have := Sys.Inv_append_nonmedia s [.log (.iceState state)] s.closed s.panicked hinv
          (by intro e he; simp at he; subst he; rfl) (fun h => h) (fun h => Or.inl h)
        simpa using this
    | coord =>
      cases hco : s.coord with
      | none => simpa using hinv
      | some c =>
        dsimp only
        obtain ⟨h1, h2, h3, h4⟩ := hinv
        cases hcl : s.closed with
        | false =>
          have hw := (h2 hcl).2 c hco
          rw [coordStep_waiting_open env c hw]
          refine ⟨by simpa using h1, ?_, by simp [hcl], ?_⟩
          · intro _
            refine ⟨by simpa using (h2 hcl).1, ?_⟩
            intro c' hc'
            simp at hc'
            subst hc'
            exact hw
          · simpa [hco] using h4
        | true =>
          refine ⟨noMediaBeforeClose_append_closed _ _ h1 (h3 hcl), by simp [hcl], ?_, ?_⟩
          · intro _
            simp only [List.mem_append]
            exact Or.inl (h3 hcl)
          · have key := coordStep_inFlight env true c
            rw [hco] at h4
            simp only [writesOf_append, pulledOf_append, List.map_append]
            rw [List.append_assoc, key, ← List.append_assoc, h4]

theorem Sys.Inv_run (env : Env) (schedule : List Action) :
    ∀ s : Sys, s.Inv → (Sys.run env s schedule).Inv := by
  induction schedule with
  | nil => intro s h; exact h
  | cons a rest ih =>
    intro s h
    exact ih _ (Sys.Inv_step env s a h)

/-- C3. Under every schedule of ICE events and steps of the streaming goroutine: while the
channel `connected` is open no step of opening the media source, no pull and no write has
happened, and the number of track writes is zero; every such action in the trace comes after
the `close(connected)`; the samples written, together with the one the goroutine holds
between its pull and its write, are exactly the samples pulled, in order; and a sample so held
is written by the very next step of the goroutine. -/
theorem no_media_before_connected (env : Env) (schedule : List Action) :
    ((Sys.run env (Sys.init env) schedule).closed = false →
        ∀ e ∈ (Sys.run env (Sys.init env) schedule).trace, e.isMedia = false) ∧
      ((Sys.run env (Sys.init env) schedule).closed = false →
        (writesOf (Sys.run env (Sys.init env) schedule).trace).length = 0) ∧
      (∀ pre e post, (Sys.run env (Sys.init env) schedule).trace = pre ++ e :: post →
        e.isMedia = true → Event.closeConnected ∈ pre) ∧
      writesOf (Sys.run env (Sys.init env) schedule).trace ++
          inFlight (Sys.run env (Sys.init env) schedule).coord =
        (pulledOf (Sys.run env (Sys.init env) schedule).trace).map toMediaSample ∧
      (∀ c smp, (Sys.run env (Sys.init env) schedule).panicked = false →
        (Sys.run env (Sys.init env) schedule).coord = some c → c.pc = .writing smp →
        writesOf (Sys.step env (Sys.run env (Sys.init env) schedule) .coord).trace =
          writesOf (Sys.run env (Sys.init env) schedule).trace ++ [toMediaSample smp]) := by
  obtain ⟨h1, h2, _, h4⟩ := Sys.Inv_run env schedule _ (Sys.Inv_init env)
  refine ⟨fun h => (h2 h).1, fun h => by rw [writesOf_nonmedia _ (h2 h).1]; rfl,
    fun pre e post h he => noMediaBeforeClose_split _ pre post e h1 h he, h4, ?_⟩
  intro c smp hp hc hpc
  rcases c with ⟨pc, p, w⟩
  simp only at hpc
  subst hpc
  unfold Sys.step
  simp only [hp, Bool.false_eq_true, if_false, hc]
  cases htr : env.track w <;> simp [coordStep, htr, writesOf_append, writesOf]

/-- C6, what the code does: the callback closes the channel each time the state `connected` is
reported, and the second close panics.  After connected, disconnected the process is alive
with the channel closed; a further connected kills it with `close of closed channel`; and so
does any report of connected to a live process whose channel is already closed. -/
theorem second_connected_panics (env : Env) :
    (Sys.run env (Sys.init env) [.ice .Connected, .ice .Disconnected]).panicked = false ∧
      (Sys.run env (Sys.init env) [.ice .Connected, .ice .Disconnected]).closed = true ∧
      (Sys.run env (Sys.init env)
        [.ice .Connected, .ice .Disconnected, .ice .Connected]).panicked = true ∧
      (Sys.run env (Sys.init env) [.ice .Connected, .ice .Disconnected, .ice .Connected]).trace =
        (Sys.init env).trace ++
          [.log (.iceState .Connected), .closeConnected, .log (.iceState .Disconnected),
            .log (.iceState .Connected), .panicCloseOfClosedChannel] ∧
      ∀ s : Sys, s.panicked = false → s.closed = true →
        (Sys.step env s (.ice .Connected)).panicked = true := by
  refine ⟨?_, ?_, ?_, ?_, ?_⟩
  · simp [Sys.run, Sys.step, Sys.init, onICEConnectionStateChange, closeConnected]
  · simp [Sys.run, Sys.step, Sys.init, onICEConnectionStateChange, closeConnected]
  · simp [Sys.run, Sys.step, Sys.init, onICEConnectionStateChange, closeConnected]
  · simp [Sys.run, Sys.step, Sys.init, onICEConnectionStateChange, closeConnected]
  · intro s hp hc
    simp [Sys.step, hp, hc, onICEConnectionStateChange, closeConnected]

/-! ## The session negotiator and the signaling endpoint -/

/-- C7. When every step succeeds, `createAnswer` performs, in this order: set the remote
description to the offer, create an answer with nil options, register the
gathering-complete promise, set the created answer as the local description, wait for
gathering to complete, read the local description; and it returns, with a nil error, the
local description as it is after the wait. -/
theorem createAnswer_order {σ : Type} (pc : PeerConnection σ) (s0 s1 s2 s4 s5 : σ)
    (offer answer : SessionDescription)
    (h1 : pc.SetRemoteDescription s0 offer = (s1, none))
    (h2 : pc.CreateAnswer s1 none = (s2, .ok answer))
    (h3 : pc.SetLocalDescription (pc.GatheringCompletePromise s2) answer = (s4, none))
    (h4 : pc.gatheringComplete s4 = some s5) :
    (createAnswer pc s0 offer).calls =
        [.SetRemoteDescription offer, .CreateAnswer none, .GatheringCompletePromise,
          .SetLocalDescription answer, .waitGatheringComplete, .LocalDescription] ∧
      (createAnswer pc s0 offer).outcome = .returned (pc.LocalDescription s5, none) ∧
      (createAnswer pc s0 offer).state = s5 := by
  simp [createAnswer, h1, h2, h3, h4]

/-- On the sample peer connection the description returned carries the candidate line that
gathering added: it is not the answer `CreateAnswer` produced. -/
theorem createAnswer_order_witness :
    (createAnswer demoPC { failAt := 0, gathers := true, localDesc := none }
        { Type_ := SDPTypeOffer, SDP := ascii "v=0" }).outcome =
      .returned (some { Type_ := SDPTypeAnswer, SDP := ascii "v=0a=candidate" }, none) ∧
      (some { Type_ := SDPTypeAnswer, SDP := ascii "v=0a=candidate" } : Option SessionDescription)
        ≠ some { Type_ := SDPTypeAnswer, SDP := ascii "v=0" } :=
  ⟨(createAnswer_order demoPC { failAt := 0, gathers := true, localDesc := none }
      { failAt := 0, gathers := true, localDesc := none }
      { failAt := 0, gathers := true, localDesc := none }
      { failAt := 0, gathers := true,
        localDesc := some { Type_ := SDPTypeAnswer, SDP := ascii "v=0" } }
      { failAt := 0, gathers := true,
        localDesc := some { Type_ := SDPTypeAnswer, SDP := ascii "v=0a=candidate" } }
      { Type_ := SDPTypeOffer, SDP := ascii "v=0" } { Type_ := SDPTypeAnswer, SDP := ascii "v=0" }
      rfl rfl rfl (by decide)).2.1, by decide⟩

/-- C8. If setting the remote description, creating the answer, or setting the local
description fails, `createAnswer` returns a nil description with exactly that error, having
performed the steps up to the failing one and none after it: it neither waits for gathering
nor reads the local description. -/
theorem createAnswer_errors {σ : Type} (pc : PeerConnection σ) (s0 : σ)
    (offer : SessionDescription) :
    (∀ s1 err, pc.SetRemoteDescription s0 offer = (s1, some err) →
        (createAnswer pc s0 offer).outcome = .returned (none, some err) ∧
        (createAnswer pc s0 offer).calls = [.SetRemoteDescription offer]) ∧
      (∀ s1 s2 err, pc.SetRemoteDescription s0 offer = (s1, none) →
        pc.CreateAnswer s1 none = (s2, .err err) →
        (createAnswer pc s0 offer).outcome = .returned (none, some err) ∧
        (createAnswer pc s0 offer).calls = [.SetRemoteDescription offer, .CreateAnswer none]) ∧
      (∀ s1 s2 s4 answer err, pc.SetRemoteDescription s0 offer = (s1, none) →
        pc.CreateAnswer s1 none = (s2, .ok answer) →
        pc.SetLocalDescription (pc.GatheringCompletePromise s2) answer = (s4, some err) →
        (createAnswer pc s0 offer).outcome = .returned (none, some err) ∧
        (createAnswer pc s0 offer).calls =
          [.SetRemoteDescription offer, .CreateAnswer none, .GatheringCompletePromise,
            .SetLocalDescription answer]) ∧
      (∀ err, (∃ d, (createAnswer pc s0 offer).outcome = .returned (d, some err)) →
        (createAnswer pc s0 offer).outcome = .returned (none, some err) ∧
        PCCall.waitGatheringComplete ∉ (createAnswer pc s0 offer).calls ∧
        PCCall.LocalDescription ∉ (createAnswer pc s0 offer).calls) := by
  refine ⟨?_, ?_, ?_, ?_⟩
  · intro s1 err h1
    simp [createAnswer, h1]
  · intro s1 s2 err h1 h2
    simp [createAnswer, h1, h2]
  · intro s1 s2 s4 answer err h1 h2 h3
    simp [createAnswer, h1, h2, h3]
  · intro err ⟨d, hd⟩
    unfold createAnswer at hd ⊢
    rcases h1 : pc.SetRemoteDescription s0 offer with ⟨s1, _ | e1⟩
    · rcases h2 : pc.CreateAnswer s1 none with ⟨s2, answer | e2⟩
      · rcases h3 : pc.SetLocalDescription (pc.GatheringCompletePromise s2) answer with
          ⟨s4, _ | e3⟩
        · rcases h4 : pc.gatheringComplete s4 with _ | s5
          · simp [h1, h2, h3, h4] at hd
          · simp [h1, h2, h3, h4] at hd
        · simp [h1, h2, h3] at hd ⊢
          exact hd.2
      · simp [h1, h2] at hd ⊢
        exact hd.2
    · simp [h1] at hd ⊢
      exact hd.2

/-- On the sample peer connection failing at `SetLocalDescription`, that error is returned. -/
theorem createAnswer_errors_witness :
    (createAnswer demoPC { failAt := 3, gathers := true, localDesc := none }
        { Type_ := SDPTypeOffer, SDP := ascii "v=0" }).outcome =
      .returned (none, some (.other "local description rejected")) :=
  ((createAnswer_errors demoPC { failAt := 3, gathers := true, localDesc := none }
      { Type_ := SDPTypeOffer, SDP := ascii "v=0" }).2.2.1
    { failAt := 3, gathers := true, localDesc := none }
    { failAt := 3, gathers := true, localDesc := none }
    { failAt := 3, gathers := true, localDesc := none }
    { Type_ := SDPTypeAnswer, SDP := ascii "v=0" } (.other "local description rejected")
    rfl rfl rfl).1

theorem responseFrom_pc_append (sniff : List Byte → String) (calls : List PCCall)
    (evs : List HandlerEvent) (r : Response) :
    responseFrom sniff (some r) (calls.map HandlerEvent.pc ++ evs) =
      responseFrom sniff (some r) evs := by
  induction calls with
  | nil => rfl
  | cons c cs ih => simpa [responseFrom, Response.apply] using ih

theorem writtenOf_pc_append (calls : List PCCall) (evs : List HandlerEvent) :
    writtenOf (calls.map HandlerEvent.pc ++ evs) = writtenOf evs := by
  induction calls with
  | nil => rfl
  | cons c cs ih => simpa [writtenOf] using ih

theorem responseOf_respondError (sniff : List Byte → String) (calls : List PCCall)
    (err : GoError) :
    responseOf sniff (calls.map HandlerEvent.pc ++ respondError err) =
      some { status := some 500, contentType := some "text/plain; charset=utf-8",
             body := utf8 err.Error.toList ++ [10] } ∧
      writtenOf (calls.map HandlerEvent.pc ++ respondError err) = [] := by
  constructor
  · unfold responseOf
    rw [responseFrom_pc_append]
    simp [respondError, responseFrom, Response.apply, Response.empty, StatusInternalServerError]
  · rw [writtenOf_pc_append]
    rfl

theorem encodeAnswer_ok (answer : Option SessionDescription) :
    ∃ eAnswer, encodeAnswer answer = .ok eAnswer := by
  cases answer <;> simp [encodeAnswer, jsonMarshal]

theorem base64Encode_ne_nil (bs : List Byte) (h : bs ≠ []) : base64Encode bs ≠ [] := by
  rcases bs with _ | ⟨a, _ | ⟨b, _ | ⟨c, rest⟩⟩⟩
  · exact absurd rfl h
  · simp [base64Encode]
  · simp [base64Encode]
  · simp [base64Encode]

/-- What `encodeAnswer` returns is never the empty string. -/
theorem encodeAnswer_ne_nil (answer : Option SessionDescription) (eAnswer : List Byte)
    (h : encodeAnswer answer = .ok eAnswer) : eAnswer ≠ [] := by
  have h1 : ascii "\x7b\"type\":" = [123, 34, 116, 121, 112, 101, 34, 58] := by decide
  have h2 : ascii "null" = [110, 117, 108, 108] := by decide
  cases answer with
  | none =>
    simp only [encodeAnswer, jsonMarshal, h2, Result.ok.injEq] at h
    rw [← h]
    exact base64Encode_ne_nil _ (by simp)
  | some a =>
    simp only [encodeAnswer, jsonMarshal, h1, Result.ok.injEq] at h
    rw [← h]
    exact base64Encode_ne_nil _ (by simp)

/-- C9. For every request to `/signal` whose body is read, whatever the texts of the
libraries' errors and whatever the content sniffer: if the body does not decode, or if
`createAnswer` returns an error, the response has status 500, content type plain text, and
as body the error message (the text of the failing step followed by the message of its
error) and a line feed, and nothing else is written; encoding an answer never fails; and when
decoding and negotiation succeed the one byte string the handler writes is exactly
`encodeAnswer` of the description `createAnswer` returned for `decodeOffer` of the body,
which, the write succeeding, is the whole body of a status 200 response whose content type
is the one sniffed from it. -/
theorem signal_responses {σ : Type} (texts : ErrorTexts) (sniff : List Byte → String)
    (pc : PeerConnection σ) (s0 : σ) (rb : List Byte) (writeErr : Option GoError) :
    (∀ err, decodeOffer texts rb = .err err →
        responseOf sniff (signalHandler texts pc s0 (.ok rb) writeErr).events =
          some { status := some 500, contentType := some "text/plain; charset=utf-8",
                 body := utf8 ("failed to decode offer body: " ++ err.Error).toList ++ [10] } ∧
        writtenOf (signalHandler texts pc s0 (.ok rb) writeErr).events = []) ∧
      (∀ offer d err, decodeOffer texts rb = .ok offer →
        (createAnswer pc s0 offer).outcome = .returned (d, some err) →
        responseOf sniff (signalHandler texts pc s0 (.ok rb) writeErr).events =
          some { status := some 500, contentType := some "text/plain; charset=utf-8",
                 body := utf8 ("failed to create answer: " ++ err.Error).toList ++ [10] } ∧
        writtenOf (signalHandler texts pc s0 (.ok rb) writeErr).events = []) ∧
      (∀ answer, ∃ eAnswer, encodeAnswer answer = .ok eAnswer) ∧
      (∀ offer answer eAnswer, decodeOffer texts rb = .ok offer →
        (createAnswer pc s0 offer).outcome = .returned (answer, none) →
        encodeAnswer answer = .ok eAnswer →
        writtenOf (signalHandler texts pc s0 (.ok rb) writeErr).events = [eAnswer] ∧
        (writeErr = none →
          responseOf sniff (signalHandler texts pc s0 (.ok rb) writeErr).events =
            some { status := some 200, contentType := some (sniff (eAnswer.take 512)),
                   body := eAnswer })) := by
  refine ⟨?_, ?_, encodeAnswer_ok, ?_⟩
  · intro err h
    have := responseOf_respondError sniff [] (fmtErrorf "failed to decode offer body: " err)
    simpa [signalHandler, h, fmtErrorf, GoError.Error] using this
  · intro offer d err h hc
    have := responseOf_respondError sniff (createAnswer pc s0 offer).calls
      (fmtErrorf "failed to create answer: " err)
    simpa [signalHandler, h, hc, fmtErrorf, GoError.Error] using this
  · intro offer answer eAnswer h hc he
    have hne := encodeAnswer_ne_nil answer eAnswer he
    cases writeErr with
    | none =>
      simp only [signalHandler, h, hc, he]
      refine ⟨?_, fun _ => ?_⟩
      · rw [writtenOf_pc_append]; rfl
      · unfold responseOf
        rw [responseFrom_pc_append]
        simp [responseFrom, Response.apply, Response.empty, hne]
    | some e =>
      simp only [signalHandler, h, hc, he]
      refine ⟨?_, fun hw => by cases hw⟩
      rw [writtenOf_pc_append]
      rfl

/-- The body `%`, which is not base64, is answered with status 500, content type plain text,
and the wrapped decode error followed by a line feed as body. -/
theorem signal_responses_witness :
    responseOf sampleSniff
        (signalHandler sampleTexts demoPC { failAt := 0, gathers := true, localDesc := none }
          (.ok (ascii "%")) none).events =
      some { status := some 500, contentType := some "text/plain; charset=utf-8",
             body :=
               utf8 "failed to decode offer body: illegal base64 data at input byte 0".toList ++
                 [10] } :=
  ((signal_responses sampleTexts sampleSniff demoPC
      { failAt := 0, gathers := true, localDesc := none } (ascii "%") none).1
    (.other "illegal base64 data at input byte 0") (by decide)).1

theorem byte_val (b : Byte) : byte b.val = b := by
  apply Fin.ext
  simp [byte, Nat.mod_eq_of_lt b.isLt]

/-! ## UTF-8 -/

theorem utf8First_spec (b : Byte) (sz lo hi : Nat) (h : utf8First b = some (sz, lo, hi)) :
    0x80 ≤ lo ∧ hi ≤ 0xBF ∧
      ((sz = 2 ∧ 0xC2 ≤ b.val ∧ b.val ≤ 0xDF) ∨
        (sz = 3 ∧ 0xE0 ≤ b.val ∧ b.val ≤ 0xEF ∧ (b.val = 0xE0 → 0xA0 ≤ lo) ∧
          (b.val = 0xED → hi ≤ 0x9F)) ∨
        (sz = 4 ∧ 0xF0 ≤ b.val ∧ b.val ≤ 0xF4 ∧ (b.val = 0xF0 → 0x90 ≤ lo) ∧
          (b.val = 0xF4 → hi ≤ 0x8F))) := by
  unfold utf8First at h
  split_ifs at h <;> simp only [Option.some.injEq, Prod.mk.injEq] at h <;>
    obtain ⟨rfl, rfl, rfl⟩ := h <;> omega

theorem DecodeRune_two (b s1 : Byte) (Y : List Byte) (lo hi : Nat)
    (hf : utf8First b = some (2, lo, hi)) (hb : 0x80 ≤ b.val)
    (h1 : lo ≤ s1.val) (h2 : s1.val ≤ hi) :
    DecodeRune (b :: s1 :: Y) = (b.val % 32 * 64 + s1.val % 64, 2) := by
  have hb' : ¬ b.val < 0x80 := by omega
  have h12 : ¬ (s1.val < lo ∨ hi < s1.val) := by omega
  simp [DecodeRune, hb', hf, h12]

theorem DecodeRune_three (b s1 s2 : Byte) (Y : List Byte) (lo hi : Nat)
    (hf : utf8First b = some (3, lo, hi)) (hb : 0x80 ≤ b.val)
    (h1 : lo ≤ s1.val) (h2 : s1.val ≤ hi) (h3 : 0x80 ≤ s2.val) (h4 : s2.val ≤ 0xBF) :
    DecodeRune (b :: s1 :: s2 :: Y) =
      (b.val % 16 * 4096 + s1.val % 64 * 64 + s2.val % 64, 3) := by
  have hb' : ¬ b.val < 0x80 := by omega
  have h12 : ¬ (s1.val < lo ∨ hi < s1.val) := by omega
  have h34 : ¬ (s2.val < 0x80 ∨ 0xBF < s2.val) := by omega
  simp [DecodeRune, hb', hf, h12, h34]

theorem DecodeRune_four (b s1 s2 s3 : Byte) (Y : List Byte) (lo hi : Nat)
    (hf : utf8First b = some (4, lo, hi)) (hb : 0x80 ≤ b.val)
    (h1 : lo ≤ s1.val) (h2 : s1.val ≤ hi) (h3 : 0x80 ≤ s2.val) (h4 : s2.val ≤ 0xBF)
    (h5 : 0x80 ≤ s3.val) (h6 : s3.val ≤ 0xBF) :
    DecodeRune (b :: s1 :: s2 :: s3 :: Y) =
      (b.val % 8 * 262144 + s1.val % 64 * 4096 + s2.val % 64 * 64 + s3.val % 64, 4) := by
  have hb' : ¬ b.val < 0x80 := by omega
  have h12 : ¬ (s1.val < lo ∨ hi < s1.val) := by omega
  have h34 : ¬ (s2.val < 0x80 ∨ 0xBF < s2.val) := by omega
  have h56 : ¬ (s3.val < 0x80 ∨ 0xBF < s3.val) := by omega
  simp [DecodeRune, hb', hf, h12, h34, h56]

/-- A well-formed multi-byte sequence at the head of the bytes: its shape. -/
theorem DecodeRune_shape (b : Byte) (r : List Byte) (hb : 0x80 ≤ b.val)
    (hv : ¬ ((DecodeRune (b :: r)).1 = RuneError ∧ (DecodeRune (b :: r)).2 = 1)) :
    ∃ sz lo hi, utf8First b = some (sz, lo, hi) ∧
      ((sz = 2 ∧ ∃ s1 Y, r = s1 :: Y ∧ lo ≤ s1.val ∧ s1.val ≤ hi) ∨
        (sz = 3 ∧ ∃ s1 s2 Y, r = s1 :: s2 :: Y ∧ lo ≤ s1.val ∧ s1.val ≤ hi ∧
          0x80 ≤ s2.val ∧ s2.val ≤ 0xBF) ∨
        (sz = 4 ∧ ∃ s1 s2 s3 Y, r = s1 :: s2 :: s3 :: Y ∧ lo ≤ s1.val ∧ s1.val ≤ hi ∧
          0x80 ≤ s2.val ∧ s2.val ≤ 0xBF ∧ 0x80 ≤ s3.val ∧ s3.val ≤ 0xBF)) := by
  have hb' : ¬ b.val < 0x80 := by omega
  cases hf : utf8First b with
  | none => simp [DecodeRune, hb', hf] at hv
  | some t =>
    obtain ⟨sz, lo, hi⟩ := t
    refine ⟨sz, lo, hi, rfl, ?_⟩
    obtain ⟨_, _, hsz⟩ := utf8First_spec b sz lo hi hf
    rcases r with _ | ⟨s1, r1⟩
    · simp [DecodeRune, hb', hf] at hv
    · by_cases h12 : s1.val < lo ∨ hi < s1.val
      · simp [DecodeRune, hb', hf, h12] at hv
      · rcases hsz with ⟨rfl, _⟩ | ⟨rfl, _⟩ | ⟨rfl, _⟩
        · exact Or.inl ⟨rfl, s1, r1, rfl, by omega, by omega⟩
        · rcases r1 with _ | ⟨s2, r2⟩
          · simp [DecodeRune, hb', hf, h12] at hv
          · by_cases h34 : s2.val < 0x80 ∨ 0xBF < s2.val
            · simp [DecodeRune, hb', hf, h12, h34] at hv
            · exact Or.inr (Or.inl ⟨rfl, s1, s2, r2, rfl, by omega, by omega, by omega, by omega⟩)
        · rcases r1 with _ | ⟨s2, r2⟩
          · simp [DecodeRune, hb', hf, h12] at hv
          · by_cases h34 : s2.val < 0x80 ∨ 0xBF < s2.val
            · simp [DecodeRune, hb', hf, h12, h34] at hv
            · rcases r2 with _ | ⟨s3, r3⟩
              · simp [DecodeRune, hb', hf, h12, h34] at hv
              · by_cases h56 : s3.val < 0x80 ∨ 0xBF < s3.val
                · simp [DecodeRune, hb', hf, h12, h34, h56] at hv
                · exact Or.inr (Or.inr ⟨rfl, s1, s2, s3, r3, rfl, by omega, by omega, by omega,
                    by omega, by omega, by omega⟩)

theorem EncodeRune_two (b s1 : Byte) (hb1 : 0xC2 ≤ b.val) (hb2 : b.val ≤ 0xDF)
    (h1 : 0x80 ≤ s1.val) (h2 : s1.val ≤ 0xBF) :
    EncodeRune (b.val % 32 * 64 + s1.val % 64) = [b, s1] := by
  have c1 : ¬ b.val % 32 * 64 + s1.val % 64 ≤ 0x7F := by omega
  have c2 : b.val % 32 * 64 + s1.val % 64 ≤ 0x7FF := by omega
  simp only [EncodeRune, c1, c2, if_false, if_true]
  congr 1
  · apply Fin.ext; simp only [byte]; omega
  · congr 1; apply Fin.ext; simp only [byte]; omega

theorem EncodeRune_three (b s1 s2 : Byte) (hb1 : 0xE0 ≤ b.val) (hb2 : b.val ≤ 0xEF)
    (h1 : 0x80 ≤ s1.val) (h2 : s1.val ≤ 0xBF) (hE0 : b.val = 0xE0 → 0xA0 ≤ s1.val)
    (hED : b.val = 0xED → s1.val ≤ 0x9F) (h3 : 0x80 ≤ s2.val) (h4 : s2.val ≤ 0xBF) :
    EncodeRune (b.val % 16 * 4096 + s1.val % 64 * 64 + s2.val % 64) = [b, s1, s2] := by
  have c1 : ¬ b.val % 16 * 4096 + s1.val % 64 * 64 + s2.val % 64 ≤ 0x7F := by omega
  have c2 : ¬ b.val % 16 * 4096 + s1.val % 64 * 64 + s2.val % 64 ≤ 0x7FF := by omega
  have c3 : ¬ (0x10FFFF < b.val % 16 * 4096 + s1.val % 64 * 64 + s2.val % 64 ∨
      (0xD800 ≤ b.val % 16 * 4096 + s1.val % 64 * 64 + s2.val % 64 ∧
        b.val % 16 * 4096 + s1.val % 64 * 64 + s2.val % 64 ≤ 0xDFFF)) := by omega
  have c4 : b.val % 16 * 4096 + s1.val % 64 * 64 + s2.val % 64 ≤ 0xFFFF := by omega
  simp only [EncodeRune, c1, c2, c3, c4, if_false, if_true]
  congr 1
  · apply Fin.ext; simp only [byte]; omega
  · congr 1
    · apply Fin.ext; simp only [byte]; omega
    · congr 1; apply Fin.ext; simp only [byte]; omega

theorem EncodeRune_four (b s1 s2 s3 : Byte) (hb1 : 0xF0 ≤ b.val) (hb2 : b.val ≤ 0xF4)
    (h1 : 0x80 ≤ s1.val) (h2 : s1.val ≤ 0xBF) (hF0 : b.val = 0xF0 → 0x90 ≤ s1.val)
    (hF4 : b.val = 0xF4 → s1.val ≤ 0x8F) (h3 : 0x80 ≤ s2.val) (h4 : s2.val ≤ 0xBF)
    (h5 : 0x80 ≤ s3.val) (h6 : s3.val ≤ 0xBF) :
    EncodeRune (b.val % 8 * 262144 + s1.val % 64 * 4096 + s2.val % 64 * 64 + s3.val % 64) =
      [b, s1, s2, s3] := by
  have c1 : ¬ b.val % 8 * 262144 + s1.val % 64 * 4096 + s2.val % 64 * 64 + s3.val % 64 ≤ 0x7F := by
    omega
  have c2 : ¬ b.val % 8 * 262144 + s1.val % 64 * 4096 + s2.val % 64 * 64 + s3.val % 64 ≤ 0x7FF := by
    omega
  have c3 : ¬ (0x10FFFF < b.val % 8 * 262144 + s1.val % 64 * 4096 + s2.val % 64 * 64 +
      s3.val % 64 ∨
      (0xD800 ≤ b.val % 8 * 262144 + s1.val % 64 * 4096 + s2.val % 64 * 64 + s3.val % 64 ∧
        b.val % 8 * 262144 + s1.val % 64 * 4096 + s2.val % 64 * 64 + s3.val % 64 ≤ 0xDFFF)) := by
    omega
  have c4 : ¬ b.val % 8 * 262144 + s1.val % 64 * 4096 + s2.val % 64 * 64 + s3.val % 64 ≤
      0xFFFF := by omega
  simp only [EncodeRune, c1, c2, c3, c4, if_false]
  congr 1
  · apply Fin.ext; simp only [byte]; omega
  · congr 1
    · apply Fin.ext; simp only [byte]; omega
    · congr 1
      · apply Fin.ext; simp only [byte]; omega
      · congr 1; apply Fin.ext; simp only [byte]; omega

/-- A well-formed multi-byte sequence at the head of the bytes is at least one byte wide, is
what `EncodeRune` writes for its rune, and decodes the same whatever follows it. -/
theorem DecodeRune_valid (b : Byte) (r : List Byte) (hb : 0x80 ≤ b.val)
    (hv : ¬ ((DecodeRune (b :: r)).1 = RuneError ∧ (DecodeRune (b :: r)).2 = 1)) :
    1 ≤ (DecodeRune (b :: r)).2 ∧
      ((b :: r).take (DecodeRune (b :: r)).2).length = (DecodeRune (b :: r)).2 ∧
      EncodeRune (DecodeRune (b :: r)).1 = (b :: r).take (DecodeRune (b :: r)).2 ∧
      ∀ Y, DecodeRune ((b :: r).take (DecodeRune (b :: r)).2 ++ Y) = DecodeRune (b :: r) := by
  obtain ⟨sz, lo, hi, hf, hcase⟩ := DecodeRune_shape b r hb hv
  obtain ⟨hlo, hhi, hsz⟩ := utf8First_spec b sz lo hi hf
  rcases hcase with ⟨rfl, s1, Y, rfl, h1, h2⟩ | ⟨rfl, s1, s2, Y, rfl, h1, h2, h3, h4⟩ |
    ⟨rfl, s1, s2, s3, Y, rfl, h1, h2, h3, h4, h5, h6⟩
  · have hsz' : 0xC2 ≤ b.val ∧ b.val ≤ 0xDF := by omega
    rw [DecodeRune_two b s1 Y lo hi hf hb h1 h2]
    refine ⟨by simp, by simp, ?_, fun Z => ?_⟩
    · rw [EncodeRune_two b s1 hsz'.1 hsz'.2 (by omega) (by omega)]; rfl
    · exact DecodeRune_two b s1 Z lo hi hf hb h1 h2
  · have hsz' : 0xE0 ≤ b.val ∧ b.val ≤ 0xEF ∧ (b.val = 0xE0 → 0xA0 ≤ lo) ∧
        (b.val = 0xED → hi ≤ 0x9F) := by omega
    rw [DecodeRune_three b s1 s2 Y lo hi hf hb h1 h2 h3 h4]
    refine ⟨by simp, by simp, ?_, fun Z => ?_⟩
    · rw [EncodeRune_three b s1 s2 hsz'.1 hsz'.2.1 (by omega) (by omega) (by omega) (by omega)
        h3 h4]
      rfl
    · exact DecodeRune_three b s1 s2 Z lo hi hf hb h1 h2 h3 h4
  · have hsz' : 0xF0 ≤ b.val ∧ b.val ≤ 0xF4 ∧ (b.val = 0xF0 → 0x90 ≤ lo) ∧
        (b.val = 0xF4 → hi ≤ 0x8F) := by omega
    rw [DecodeRune_four b s1 s2 s3 Y lo hi hf hb h1 h2 h3 h4 h5 h6]
    refine ⟨by simp, by simp, ?_, fun Z => ?_⟩
    · rw [EncodeRune_four b s1 s2 s3 hsz'.1 hsz'.2.1 (by omega) (by omega) (by omega) (by omega)
        h3 h4 h5 h6]
      rfl
    · exact DecodeRune_four b s1 s2 s3 Z lo hi hf hb h1 h2 h3 h4 h5 h6

/-! ## base64 -/

theorem decodeMap_b64Char : ∀ n, n < 64 → decodeMap (b64Char n) = some n := by
  decide

theorem b64Char_not_newline : ∀ n, n < 64 → (b64Char n).val ≠ 13 ∧ (b64Char n).val ≠ 10 := by
  decide

theorem decodeMap_pad : decodeMap 61 = none := by
  decide

theorem base64Encode_no_newline (bs : List Byte) :
    (base64Encode bs).filter (fun c => c.val ≠ 13 ∧ c.val ≠ 10) = base64Encode bs := by
  rw [List.filter_eq_self]
  induction bs using base64Encode.induct with
  | case1 => intro c hc; simp [base64Encode] at hc
  | case2 a =>
    intro c hc
    simp only [base64Encode, List.mem_cons, List.mem_singleton, List.not_mem_nil, or_false] at hc
    rcases hc with rfl | rfl | rfl | rfl
    · simpa using b64Char_not_newline _ (Nat.mod_lt _ (by decide))
    · simpa using b64Char_not_newline _ (Nat.mod_lt _ (by decide))
    · decide
    · decide
  | case3 a b =>
    intro c hc
    simp only [base64Encode, List.mem_cons, List.mem_singleton, List.not_mem_nil, or_false] at hc
    rcases hc with rfl | rfl | rfl | rfl
    · simpa using b64Char_not_newline _ (Nat.mod_lt _ (by decide))
    · simpa using b64Char_not_newline _ (Nat.mod_lt _ (by decide))
    · simpa using b64Char_not_newline _ (Nat.mod_lt _ (by decide))
    · decide
  | case4 a b c rest ih =>
    intro x hx
    simp only [base64Encode, List.mem_cons] at hx
    rcases hx with rfl | rfl | rfl | rfl | hx
    · simpa using b64Char_not_newline _ (Nat.mod_lt _ (by decide))
    · simpa using b64Char_not_newline _ (Nat.mod_lt _ (by decide))
    · simpa using b64Char_not_newline _ (Nat.mod_lt _ (by decide))
    · simpa using b64Char_not_newline _ (Nat.mod_lt _ (by decide))
    · exact ih x hx

theorem base64DecodeQuanta_encode (bs : List Byte) :
    base64DecodeQuanta (base64Encode bs) = some bs := by
  induction bs using base64Encode.induct with
  | case1 => rfl
  | case2 a =>
    have ha := a.isLt
    simp only [base64Encode, base64DecodeQuanta,
      decodeMap_b64Char _ (Nat.mod_lt _ (by decide : 0 < 64)), decodeMap_pad]
    simp only [show ((61 : Byte).val = 61) from rfl, and_self, if_true]
    congr 1
    congr 1
    apply Fin.ext
    simp only [byte]
    omega
  | case3 a b =>
    have ha := a.isLt
    have hb := b.isLt
    simp only [base64Encode, base64DecodeQuanta,
      decodeMap_b64Char _ (Nat.mod_lt _ (by decide : 0 < 64)), decodeMap_pad]
    simp only [show ((61 : Byte).val = 61) from rfl, and_self, if_true]
    congr 1
    congr 1
    · apply Fin.ext
      simp only [byte]
      omega
    · congr 1
      apply Fin.ext
      simp only [byte]
      omega
  | case4 a b c rest ih =>
    have ha := a.isLt
    have hb := b.isLt
    have hc := c.isLt
    simp only [base64Encode, base64DecodeQuanta,
      decodeMap_b64Char _ (Nat.mod_lt _ (by decide : 0 < 64)), ih]
    congr 1
    congr 1
    · apply Fin.ext
      simp only [byte]
      omega
    · congr 1
      · apply Fin.ext
        simp only [byte]
        omega
      · congr 1
        apply Fin.ext
        simp only [byte]
        omega

theorem base64Decode_encode (bs : List Byte) : base64Decode (base64Encode bs) = some bs := by
  unfold base64Decode
  rw [base64Encode_no_newline, base64DecodeQuanta_encode]

/-! ## JSON strings -/

theorem hexVal_hex : ∀ n, n < 16 → hexVal (hex n) = some n := by
  decide

theorem prepend_some (pre s rest : List Byte) :
    prepend pre (some (s, rest)) = some (pre ++ s, rest) := rfl

theorem escapeASCII_length (b : Byte) : 1 ≤ (escapeASCII b).length := by
  unfold escapeASCII
  split_ifs <;> simp

theorem getu4_eq (a b c d : Byte) (X : List Byte) (x y z w : Nat)
    (ha : hexVal a = some x) (hb : hexVal b = some y) (hc : hexVal c = some z)
    (hd : hexVal d = some w) :
    getu4 (92 :: 117 :: a :: b :: c :: d :: X) = some (((x * 16 + y) * 16 + z) * 16 + w) := by
  simp +decide [getu4, ha, hb, hc, hd]

/-- The parser on a `\\uXXXX` escape that is not a surrogate. -/
theorem parseStringBody_u4 (f : Nat) (a b c d : Byte) (X : List Byte) (rr : Nat)
    (hg : getu4 (92 :: 117 :: a :: b :: c :: d :: X) = some rr)
    (hsur : ¬ (0xD800 ≤ rr ∧ rr < 0xE000)) :
    parseStringBody (f + 1) (92 :: 117 :: a :: b :: c :: d :: X) =
      prepend (EncodeRune rr) (parseStringBody f X) := by
  rw [parseStringBody]
  simp +decide [hg, hsur]

/-- The parser reads the escape of an ASCII byte back as that byte. -/
theorem parseStringBody_escapeASCII (b : Byte) (hb : b.val < 0x80) (f : Nat) (X : List Byte) :
    parseStringBody (f + 1) (escapeASCII b ++ X) = prepend [b] (parseStringBody f X) := by
  have v92 : (92 : Byte).val = 92 := rfl
  have v117 : (117 : Byte).val = 117 := rfl
  unfold escapeASCII
  split_ifs with h1 h2 h3 h4 h5 h6 h7
  · rcases h1 with h | h
    · have hb8 : b = 92 := Fin.ext h
      subst hb8
      rfl
    · have hb8 : b = 34 := Fin.ext h
      subst hb8
      rfl
  · have hb8 : b = 8 := Fin.ext h2
    subst hb8
    rfl
  · have hb8 : b = 12 := Fin.ext h3
    subst hb8
    rfl
  · have hb8 : b = 10 := Fin.ext h4
    subst hb8
    rfl
  · have hb8 : b = 13 := Fin.ext h5
    subst hb8
    rfl
  · have hb8 : b = 9 := Fin.ext h6
    subst hb8
    rfl
  · have hx1 := hexVal_hex (b.val / 16) (by omega)
    have hx2 := hexVal_hex (b.val % 16) (by omega)
    have h48 : hexVal 48 = some 0 := by decide
    have hnum : ((0 * 16 + 0) * 16 + b.val / 16) * 16 + b.val % 16 = b.val := by omega
    have henc : EncodeRune b.val = [b] := by
      have : b.val ≤ 0x7F := by omega
      simp [EncodeRune, this, byte_val]
    have hg := getu4_eq 48 48 (hex (b.val / 16)) (hex (b.val % 16)) X _ _ _ _ h48 h48 hx1 hx2
    rw [hnum] at hg
    have := parseStringBody_u4 f 48 48 (hex (b.val / 16)) (hex (b.val % 16)) X b.val hg
      (by omega)
    rw [henc] at this
    exact this
  · have c1 : b.val ≠ 34 := by omega
    have c2 : b.val ≠ 92 := by omega
    have c3 : ¬ b.val < 32 := by omega
    simp +decide [parseStringBody, c1, c2, c3, hb]

theorem DecodeRune_ascii (b : Byte) (r : List Byte) (hb : b.val < 0x80) :
    DecodeRune (b :: r) = (b.val, 1) := by
  simp [DecodeRune, hb]

/-- The parser on a well-formed multi-byte sequence copied as it is. -/
theorem parseStringBody_copy (f : Nat) (b : Byte) (r Y : List Byte) (hb : 0x80 ≤ b.val)
    (hv : ¬ ((DecodeRune (b :: r)).1 = RuneError ∧ (DecodeRune (b :: r)).2 = 1)) :
    parseStringBody (f + 1) ((b :: r).take (DecodeRune (b :: r)).2 ++ Y) =
      prepend ((b :: r).take (DecodeRune (b :: r)).2) (parseStringBody f Y) := by
  obtain ⟨h1, hlen, henc, hdec⟩ := DecodeRune_valid b r hb hv
  obtain ⟨k, hk⟩ : ∃ k, (DecodeRune (b :: r)).2 = k + 1 := ⟨(DecodeRune (b :: r)).2 - 1, by omega⟩
  have hcons : (b :: r).take (DecodeRune (b :: r)).2 ++ Y = b :: (r.take k ++ Y) := by
    rw [hk]; rfl
  have hdec' := hdec Y
  rw [hcons] at hdec'
  have hdrop : (b :: (r.take k ++ Y)).drop (DecodeRune (b :: r)).2 = Y := by
    rw [← hcons, List.drop_left' hlen]
  have c1 : b.val ≠ 34 := by omega
  have c2 : b.val ≠ 92 := by omega
  have c3 : ¬ b.val < 32 := by omega
  have c4 : ¬ b.val < 128 := by omega
  rw [hcons]
  simp only [parseStringBody, c1, c2, c3, c4, if_false, hdec', hdrop, henc]

/-- The parser reads back what the encoder writes for well-formed UTF-8: the text between the
quotes, then the closing quote. -/
theorem parseStringBody_appendStringBody (n : Nat) :
    ∀ (s : List Byte) (fuel : Nat) (rest : List Byte), validAux n s = true →
      (appendStringBody n s).length < fuel →
      parseStringBody fuel (appendStringBody n s ++ 34 :: rest) = some (s, rest) := by
  induction n with
  | zero =>
    intro s fuel rest hv hf
    cases s with
    | nil =>
      obtain ⟨f, rfl⟩ : ∃ f, fuel = f + 1 := ⟨fuel - 1, by omega⟩
      rfl
    | cons b r => simp [validAux] at hv
  | succ n ih =>
    intro s fuel rest hv hf
    cases s with
    | nil =>
      obtain ⟨f, rfl⟩ : ∃ f, fuel = f + 1 := ⟨fuel - 1, by omega⟩
      rfl
    | cons b r =>
      obtain ⟨f, rfl⟩ : ∃ f, fuel = f + 1 := ⟨fuel - 1, by omega⟩
      by_cases hb : b.val < 0x80
      · have hd := DecodeRune_ascii b r hb
        have hne : ¬ (b.val = RuneError ∧ 1 = 1) := by
          simp only [RuneError]; omega
        have hvr : validAux n r = true := by
          have hv' := hv
          simp [validAux, hd] at hv'
          exact hv'.2
        have happ : appendStringBody (n + 1) (b :: r) = escapeASCII b ++ appendStringBody n r := by
          simp [appendStringBody, hb]
        rw [happ] at hf ⊢
        have hl := escapeASCII_length b
        rw [List.length_append] at hf
        rw [List.append_assoc, parseStringBody_escapeASCII b hb,
          ih r f rest hvr (by omega), prepend_some]
        rfl
      · have hb' : 0x80 ≤ b.val := by omega
        have hne : ¬ ((DecodeRune (b :: r)).1 = RuneError ∧ (DecodeRune (b :: r)).2 = 1) := by
          intro h
          simp [validAux, h] at hv
        have hvr : validAux n ((b :: r).drop (DecodeRune (b :: r)).2) = true := by
          simpa [validAux, hne] using hv
        obtain ⟨h1, hlen, henc, hdec⟩ := DecodeRune_valid b r hb' hne
        have htd : (b :: r).take (DecodeRune (b :: r)).2 ++
            (b :: r).drop (DecodeRune (b :: r)).2 = b :: r := List.take_append_drop _ _
        by_cases hls : (DecodeRune (b :: r)).1 = 0x2028 ∨ (DecodeRune (b :: r)).1 = 0x2029
        · have happ : appendStringBody (n + 1) (b :: r) =
              92 :: 117 :: 50 :: 48 :: 50 :: hex ((DecodeRune (b :: r)).1 % 16) ::
                appendStringBody n ((b :: r).drop (DecodeRune (b :: r)).2) := by
            rw [appendStringBody]
            simp only [hb, if_false, hne, hls, if_true]
            rfl
          rw [happ] at hf ⊢
          simp only [List.length_cons] at hf
          have hx := hexVal_hex ((DecodeRune (b :: r)).1 % 16) (Nat.mod_lt _ (by decide))
          have h50 : hexVal 50 = some 2 := by decide
          have h48 : hexVal 48 = some 0 := by decide
          have hg := getu4_eq 50 48 50 (hex ((DecodeRune (b :: r)).1 % 16))
            (appendStringBody n ((b :: r).drop (DecodeRune (b :: r)).2) ++ 34 :: rest)
            _ _ _ _ h50 h48 h50 hx
          have hnum : ((2 * 16 + 0) * 16 + 2) * 16 + (DecodeRune (b :: r)).1 % 16 =
              (DecodeRune (b :: r)).1 := by
            rcases hls with h | h <;> rw [h]
          rw [hnum] at hg
          have hp := parseStringBody_u4 f 50 48 50 (hex ((DecodeRune (b :: r)).1 % 16))
            (appendStringBody n ((b :: r).drop (DecodeRune (b :: r)).2) ++ 34 :: rest)
            (DecodeRune (b :: r)).1 hg (by rcases hls with h | h <;> rw [h] <;> decide)
          simp only [List.cons_append]
          rw [hp, ih _ f rest hvr (by omega), prepend_some, henc, htd]
        · have happ : appendStringBody (n + 1) (b :: r) =
              (b :: r).take (DecodeRune (b :: r)).2 ++
                appendStringBody n ((b :: r).drop (DecodeRune (b :: r)).2) := by
            rw [appendStringBody]
            simp only [hb, if_false, hne, hls]
          rw [happ] at hf ⊢
          rw [List.length_append, hlen] at hf
          rw [List.append_assoc, parseStringBody_copy f b r _ hb' hne,
            ih _ f rest hvr (by omega), prepend_some, htd]

/-- The parser reads a string literal written by the encoder back as the string. -/
theorem parseString_appendString (s rest : List Byte) (hv : utf8Valid s = true) :
    parseString (appendStringBody s.length s ++ 34 :: rest) = some (s, rest) := by
  unfold parseString
  apply parseStringBody_appendStringBody s.length s _ rest hv
  simp

/-! ## The JSON object of a session description -/

theorem skipSpace_cons (c : Byte) (rest : List Byte) (h : isSpace c = false) :
    skipSpace (c :: rest) = c :: rest := by
  simp [skipSpace, h]

/-- The value parser on a string literal written by the encoder. -/
theorem parseValue_string (fuel depth : Nat) (v rest : List Byte) (hv : utf8Valid v = true) :
    parseValue (fuel + 1) depth (34 :: (appendStringBody v.length v ++ 34 :: rest)) =
      some (.string v, rest) := by
  rw [parseValue, skipSpace_cons 34 _ (by decide)]
  simp +decide only [if_false, if_true, parseString_appendString v rest hv]

/-- The member parser on a member with string value that a comma follows. -/
theorem parseMembers_comma (fuel depth : Nat) (k v rest : List Byte)
    (hk : utf8Valid k = true) (hv : utf8Valid v = true) :
    parseMembers (fuel + 2) depth
        (34 :: (appendStringBody k.length k ++
          34 :: 58 :: 34 :: (appendStringBody v.length v ++ 34 :: 44 :: rest))) =
      match parseMembers (fuel + 1) depth rest with
      | some (ms, rest5) => some ((k, .string v) :: ms, rest5)
      | none => none := by
  rw [parseMembers, skipSpace_cons 34 _ (by decide)]
  simp +decide only [if_false, if_true, parseString_appendString k _ hk]
  rw [skipSpace_cons 58 _ (by decide)]
  simp +decide only [if_false, if_true, parseValue_string fuel depth v _ hv]
  rw [skipSpace_cons 44 _ (by decide)]
  simp +decide only [if_false, if_true]

/-- The member parser on a member with string value that the closing brace follows. -/
theorem parseMembers_close (fuel depth : Nat) (k v rest : List Byte)
    (hk : utf8Valid k = true) (hv : utf8Valid v = true) :
    parseMembers (fuel + 2) depth
        (34 :: (appendStringBody k.length k ++
          34 :: 58 :: 34 :: (appendStringBody v.length v ++ 34 :: 125 :: rest))) =
      some ([(k, .string v)], rest) := by
  rw [parseMembers, skipSpace_cons 34 _ (by decide)]
  simp +decide only [if_false, if_true, parseString_appendString k _ hk]
  rw [skipSpace_cons 58 _ (by decide)]
  simp +decide only [if_false, if_true, parseValue_string fuel depth v _ hv]
  rw [skipSpace_cons 125 _ (by decide)]
  simp +decide only [if_false, if_true]

/-- The text `json.Marshal` writes for a session description, byte by byte. -/
theorem jsonMarshal_some (a : SessionDescription) :
    jsonMarshal (some a) =
      .ok (123 :: 34 :: (appendStringBody (ascii "type").length (ascii "type") ++
        34 :: 58 :: 34 :: (appendStringBody (ascii a.Type_.String).length (ascii a.Type_.String) ++
          34 :: 44 :: 34 :: (appendStringBody (ascii "sdp").length (ascii "sdp") ++
            34 :: 58 :: 34 :: (appendStringBody a.SDP.length a.SDP ++ 34 :: 125 :: []))))) := by
  have h1 : ascii "\x7b\"type\":" = [123, 34, 116, 121, 112, 101, 34, 58] := by decide
  have h2 : ascii ",\"sdp\":" = [44, 34, 115, 100, 112, 34, 58] := by decide
  have h3 : ascii "\x7d" = [125] := by decide
  have h4 : appendStringBody (ascii "type").length (ascii "type") = [116, 121, 112, 101] := by
    decide
  have h5 : appendStringBody (ascii "sdp").length (ascii "sdp") = [115, 100, 112] := by decide
  simp only [jsonMarshal, SDPType.MarshalJSON, appendString, h1, h2, h3, h4, h5,
    List.cons_append, List.nil_append, List.append_assoc]

theorem parseJSON_marshal (t s : List Byte) (ht : utf8Valid t = true) (hs : utf8Valid s = true) :
    parseJSON (123 :: 34 :: (appendStringBody (ascii "type").length (ascii "type") ++
        34 :: 58 :: 34 :: (appendStringBody t.length t ++
          34 :: 44 :: 34 :: (appendStringBody (ascii "sdp").length (ascii "sdp") ++
            34 :: 58 :: 34 :: (appendStringBody s.length s ++ 34 :: 125 :: []))))) =
      some (.object [(ascii "type", .string t), (ascii "sdp", .string s)]) := by
  unfold parseJSON
  generalize hn : (123 :: 34 :: (appendStringBody (ascii "type").length (ascii "type") ++
        34 :: 58 :: 34 :: (appendStringBody t.length t ++
          34 :: 44 :: 34 :: (appendStringBody (ascii "sdp").length (ascii "sdp") ++
            34 :: 58 :: 34 :: (appendStringBody s.length s ++ 34 :: 125 :: []))))).length = n
  have hlen : ∃ m, n = m + 3 := by
    refine ⟨n - 3, ?_⟩
    simp only [List.length_cons, List.length_append] at hn
    omega
  obtain ⟨m, rfl⟩ := hlen
  rw [parseValue, skipSpace_cons 123 _ (by decide)]
  simp +decide only [if_false, if_true, maxNestingDepth]
  rw [skipSpace_cons 34 _ (by decide)]
  simp +decide only [if_false, if_true]
  rw [show m + 3 = (m + 1) + 2 from rfl,
    parseMembers_comma (m + 1) 1 (ascii "type") t _ (by decide) ht,
    parseMembers_close m 1 (ascii "sdp") s [] (by decide) hs]
  simp [skipSpace]

theorem SDPType_valid_cases (t : SDPType) (h : t.isValid = true) :
    t = SDPTypeOffer ∨ t = SDPTypePranswer ∨ t = SDPTypeAnswer ∨ t = SDPTypeRollback := by
  have h' := h
  simp only [SDPType.isValid, Bool.or_eq_true, decide_eq_true_eq] at h'
  tauto

theorem SDPType_unmarshal_marshal (t : SDPType) (h : t.isValid = true) :
    utf8Valid (ascii t.String) = true ∧
      SDPType.UnmarshalJSON (.string (ascii t.String)) = some t := by
  rcases SDPType_valid_cases t h with rfl | rfl | rfl | rfl <;> decide

/-- What `json.Marshal` writes for a description with a defined type and well-formed UTF-8
as SDP, `json.Unmarshal` reads back as the same description. -/
theorem jsonUnmarshal_marshal (a : SessionDescription) (htype : a.Type_.isValid = true)
    (hsdp : utf8Valid a.SDP = true) :
    ∃ b, jsonMarshal (some a) = .ok b ∧ jsonUnmarshal b = some a := by
  obtain ⟨hv, hu⟩ := SDPType_unmarshal_marshal a.Type_ htype
  refine ⟨_, jsonMarshal_some a, ?_⟩
  unfold jsonUnmarshal
  rw [parseJSON_marshal _ _ hv hsdp]
  have f1 : fieldOf (ascii "type") = some .Type_ := by decide
  have f2 : fieldOf (ascii "sdp") = some .SDP := by decide
  simp only [decodeMembers, f1, f2, hu]

/-! ## The round trip of the negotiation payload -/

/-- C1, as stated, fails: for the answer whose SDP is the single byte 0xFF, which is not
well-formed UTF-8, `encodeAnswer` succeeds and `decodeOffer` of its result succeeds, but the
description that comes back holds U+FFFD (bytes EF BF BD) in place of the byte; so it is not
true that every description with a defined type is restored. -/
theorem invalid_utf8_sdp_is_not_restored :
    SDPType.isValid SDPTypeAnswer = true ∧
      encodeAnswer (some { Type_ := SDPTypeAnswer, SDP := [0xFF] }) =
        .ok (ascii "eyJ0eXBlIjoiYW5zd2VyIiwic2RwIjoiXHVmZmZkIn0=") ∧
      (∀ texts : ErrorTexts,
        decodeOffer texts (ascii "eyJ0eXBlIjoiYW5zd2VyIiwic2RwIjoiXHVmZmZkIn0=") =
          .ok { Type_ := SDPTypeAnswer, SDP := [0xEF, 0xBF, 0xBD] }) ∧
      (∀ texts : ErrorTexts, ¬ ∀ a : SessionDescription, a.Type_.isValid = true →
          ∃ s, encodeAnswer (some a) = .ok s ∧ decodeOffer texts s = .ok a) := by
  have h1 : encodeAnswer (some { Type_ := SDPTypeAnswer, SDP := [0xFF] }) =
      .ok (ascii "eyJ0eXBlIjoiYW5zd2VyIiwic2RwIjoiXHVmZmZkIn0=") := by decide
  have hb : base64Decode (ascii "eyJ0eXBlIjoiYW5zd2VyIiwic2RwIjoiXHVmZmZkIn0=") =
      some (ascii "\x7b\"type\":\"answer\",\"sdp\":\"\\ufffd\"\x7d") := by decide
  have hj : jsonUnmarshal (ascii "\x7b\"type\":\"answer\",\"sdp\":\"\\ufffd\"\x7d") =
      some { Type_ := SDPTypeAnswer, SDP := [0xEF, 0xBF, 0xBD] } := by decide
  have h2 : ∀ texts : ErrorTexts,
      decodeOffer texts (ascii "eyJ0eXBlIjoiYW5zd2VyIiwic2RwIjoiXHVmZmZkIn0=") =
        .ok { Type_ := SDPTypeAnswer, SDP := [0xEF, 0xBF, 0xBD] } := by
    intro texts
    unfold decodeOffer
    rw [hb]
    dsimp only
    rw [hj]
  refine ⟨by decide, h1, h2, fun texts h => ?_⟩
  obtain ⟨s, hs1, hs2⟩ := h { Type_ := SDPTypeAnswer, SDP := [0xFF] } (by decide)
  rw [h1] at hs1
  cases hs1
  rw [h2] at hs2
  revert hs2
  decide

/-- C1, amended. For every session description with one of the four defined SDP types and an
SDP text that is well-formed UTF-8, `encodeAnswer` succeeds with some string, and `decodeOffer`
of that string succeeds and returns a description with the same type and the same SDP text. -/
theorem encode_decode_roundtrip (texts : ErrorTexts) (a : SessionDescription)
    (htype : a.Type_.isValid = true) (hsdp : utf8Valid a.SDP = true) :
    ∃ s, encodeAnswer (some a) = .ok s ∧ decodeOffer texts s = .ok a := by
  obtain ⟨b, hm, hu⟩ := jsonUnmarshal_marshal a htype hsdp
  refine ⟨base64Encode b, by simp [encodeAnswer, hm], ?_⟩
  simp [decodeOffer, base64Decode_encode, hu]

/-- The answer with SDP `v=0` followed by a line break survives the round trip. -/
theorem encode_decode_roundtrip_witness :
    ∃ s, encodeAnswer (some { Type_ := SDPTypeAnswer, SDP := ascii "v=0\r\n" }) = .ok s ∧
      decodeOffer sampleTexts s = .ok { Type_ := SDPTypeAnswer, SDP := ascii "v=0\r\n" } :=
  encode_decode_roundtrip sampleTexts { Type_ := SDPTypeAnswer, SDP := ascii "v=0\r\n" }
    (by decide) (by decide)

end PulseToWebrtc
